import Mathlib

/-!
# Go_Futile: the narrative graph engine of `main.go`

A shallow embedding of `src/main.go`: the text wrapper (`WrapText`, `textWidth`), the
story graph (`storyNode`, `choice`, `addChoice`), the per-frame region layout (`Game.Draw`)
and the debounced click dispatch (`Game.Update`).

Conventions of the embedding.

* A Go `string` is a Lean `String` (a sequence of runes, i.e. valid UTF-8 text), so that
  `for _, r := range s` is a traversal of `s.data`.
* A Go `int` (pixel coordinates, indices, widths) is an unbounded `Int`; the values are
  window sizes and glyph sums, far from the 64-bit range.
* A `*storyNode` is `Option NodeRef`: `none` is the nil pointer, `some r` is the address of
  the `r`-th allocated node of the heap (a `List storyNode`). Nodes are shared and the graph
  has cycles, so nodes are never copied into each other.
* A `*ebiten.Image` is `Option Image`, the image being an opaque handle.
* Library routines that are not part of the repository (`font.Face`, `text.BoundString`,
  the clock, the pointer device) enter as parameters.
-/

namespace GoFutile

/-! ## Text layout -/

/-- The part of a `font.Face` that `main.go` consults: `glyphAdvance r` is
`face.GlyphAdvance(r)` rounded to an `int` (`a.Round()`), and `boundWidth s` is
`textBounds.Max.X - textBounds.Min.X` for `textBounds := text.BoundString(face, s)`. -/
structure Face where
  glyphAdvance : Char → Int
  boundWidth : String → Int

/-- Go's `unicode.IsSpace`: the Latin-1 spaces `\t \n \v \f \r`, space, U+0085, U+00A0, and
the other code points with the White_Space property. -/
def isSpace (c : Char) : Bool :=
  let n := c.toNat
  (9 ≤ n && n ≤ 13) || n == 32 || n == 0x85 || n == 0xA0 || n == 0x1680 ||
  (0x2000 ≤ n && n ≤ 0x200A) || n == 0x2028 || n == 0x2029 || n == 0x202F ||
  n == 0x205F || n == 0x3000

/-- The scanning loop of `strings.Fields` on a rune sequence: `cur` is the field that is
being read (empty when the scan stands on white space), and a field is emitted whenever a
white-space rune ends a non-empty `cur`, or the input ends with a non-empty `cur`. -/
def fieldsLoop : List Char → List Char → List (List Char)
  | cur, [] => if cur.isEmpty then [] else [cur]
  | cur, c :: cs =>
    if isSpace c then
      if cur.isEmpty then fieldsLoop [] cs else cur :: fieldsLoop [] cs
    else fieldsLoop (cur ++ [c]) cs

/-- Go's `strings.Fields`: the maximal runs of non-white-space runes of `s`, in order. -/
def Fields (s : String) : List String :=
  (fieldsLoop [] s.data).map String.mk

/-- Helper to measure text width (`textWidth` of `main.go`): the sum of the rounded glyph
advances of the runes of `s`. -/
def textWidth (s : String) (face : Face) : Int :=
  s.data.foldl (fun width r => width + face.glyphAdvance r) 0

/-- The `for _, word := range words[1:]` loop of `WrapText`, with the two loop variables
`lines` and `currentLine` as accumulators; the final `append(lines, currentLine)` is its
exit. -/
def wrapLoop (face : Face) (maxWidth : Int) : List String → List String → String → List String
  | [], lines, currentLine => lines ++ [currentLine]
  | word :: rest, lines, currentLine =>
    let testLine := currentLine ++ " " ++ word
    let w := textWidth testLine face
    if w > maxWidth then
      wrapLoop face maxWidth rest (lines ++ [currentLine]) word
    else
      wrapLoop face maxWidth rest lines testLine

/-- `WrapText` wraps the input string to fit within `maxWidth` in pixels using the given
font face. -/
def WrapText (text : String) (face : Face) (maxWidth : Int) : List String :=
  match Fields text with
  | [] => []
  | first :: rest => wrapLoop face maxWidth rest [] first

/-- The word stream of a list of lines: each line split on white space, concatenated in
line order. -/
def wordsOf (lines : List String) : List String :=
  (lines.map Fields).flatten

/-- A word: a non-empty rune sequence without white space. -/
def IsWord (w : List Char) : Prop :=
  w ≠ [] ∧ ∀ c ∈ w, isSpace c = false

/-! ## Story graph -/

/-- An `*ebiten.Image` that is not nil: an opaque bitmap handle, identified by the asset it
was decoded from. -/
structure Image where
  path : String
deriving DecidableEq

/-- The address of a `storyNode`: its position in the heap. -/
abbrev NodeRef := Nat

/-- The struct `choice`; `nextNode` is a `*storyNode`, `none` being nil. -/
structure choice where
  cmd : String
  description : String
  nextNode : Option NodeRef
deriving DecidableEq

/-- The struct `storyNode`. The elements of `choices` are the `*choice` values that
`addChoice` allocates, none of which is nil. -/
structure storyNode where
  text : String
  choices : List choice
  image : Option Image
deriving DecidableEq

/-- The allocated story nodes, by address. -/
abbrev Heap := List storyNode

/-- Dereference a `*storyNode`; `none` is the nil-pointer panic. -/
def Heap.deref (heap : Heap) (p : Option NodeRef) : Option storyNode :=
  match p with
  | none => none
  | some r => heap[r]?

/-- The expression `&storyNode{...}`: allocate a node and return its address. -/
def newNode (heap : Heap) (node : storyNode) : Heap × NodeRef :=
  (heap ++ [node], heap.length)

/-- The function `loadImage(path)` on an asset that opens and decodes (otherwise `log.Fatal`
ends the process before any node exists). -/
def loadImage (path : String) : Image :=
  ⟨path⟩

/-- The method `(node *storyNode) addChoice(cmd, description, nextNode)`: allocate the choice
and append it to `node.choices`. `none` is the panic on a nil receiver. -/
def addChoice (heap : Heap) (node : Option NodeRef) (cmd : String) (description : String)
    (nextNode : Option NodeRef) : Option Heap :=
  match node with
  | none => none
  | some r =>
    match heap[r]? with
    | none => none
    | some n => some (heap.set r { n with choices := n.choices ++ [⟨cmd, description, nextNode⟩] })

/-! ## Game state -/

/-- A `time.Time`, as nanoseconds relative to the Unix epoch. -/
abbrev Time := Int

/-- A `time.Duration`: nanoseconds. -/
abbrev Duration := Int

/-- The constant `time.Millisecond`. -/
def Millisecond : Duration := 1000000

/-- The largest `time.Duration`, `1<<63 - 1`. -/
def maxDuration : Duration := 2 ^ 63 - 1

/-- The smallest `time.Duration`, `-1 << 63`. -/
def minDuration : Duration := -(2 ^ 63)

/-- The zero `time.Time`, January 1 of year 1, 00:00:00 UTC: the value of `lastClickTime` in
a `Game` literal that does not set it. It lies 62135596800 seconds before the Unix epoch. -/
def zeroTime : Time := -62135596800 * 1000000000

/-- The duration `time.Since(t)` when the clock reads `now`: the difference `now - t`,
saturated to the range of `time.Duration` as `Time.Sub` does. -/
def Since (now : Time) (t : Time) : Duration :=
  if now - t > maxDuration then maxDuration
  else if now - t < minDuration then minDuration
  else now - t

/-- The struct `ChoiceArea`. -/
structure ChoiceArea where
  x : Int
  y : Int
  w : Int
  h : Int
  index : Int
deriving DecidableEq

/-- The struct `Game`. -/
structure Game where
  currentNode : Option NodeRef
  startNode : Option NodeRef
  choiceAreas : List ChoiceArea
  quitButton : ChoiceArea
  displayedImage : Option Image
  lastClickTime : Time
  mouseWasPressed : Bool
  screenWidth : Int
  screenHeight : Int
deriving DecidableEq

/-- What one call of `Update` reads from its surroundings: the left button
(`ebiten.IsMouseButtonPressed`), the pointer (`ebiten.CursorPosition`), and the two readings
of the clock, `sinceClock` by `time.Since` in the condition of line 129 and `nowClock` by
`time.Now()` on line 130. A reading of the system clock is a number of nanoseconds since the
Unix epoch, hence a natural number. -/
structure Input where
  mouseIsPressed : Bool
  x : Int
  y : Int
  sinceClock : Nat
  nowClock : Nat
deriving DecidableEq

/-- The input of an `Update` during which the clock stands at `t`. -/
def Input.atTime (pressed : Bool) (x y : Int) (t : Nat) : Input :=
  ⟨pressed, x, y, t, t⟩

/-- The argument of `ebiten.SetCursorShape`. -/
inductive CursorShape where
  | CursorShapeDefault
  | CursorShapePointer
deriving DecidableEq

/-- How a call ended: it returned, it called `os.Exit(0)`, or it panicked, on a nil pointer
dereference or on an index out of range. -/
inductive Status where
  | returned
  | exited
  | nilDereference
  | indexOutOfRange
deriving DecidableEq

/-- The result of `Update` or `Draw`: how the call ended, the story nodes and the `Game` as
they were at that moment, and the cursor shape the call set, if it set one. -/
structure Outcome where
  status : Status
  heap : Heap
  game : Game
  cursor : Option CursorShape
deriving DecidableEq

/-! ## Draw -/

/-- The loop `for i, c := range g.currentNode.choices` of `Draw`, from index `i` on: one
region per choice, appended in choice order. -/
def choiceRegions (face : Face) (screenWidth : Int) (yStart : Int) :
    Nat → List choice → List ChoiceArea
  | _, [] => []
  | i, c :: cs =>
    let choiceText := c.cmd ++ ": " ++ c.description
    let y := yStart + 20 * (i : Int)
    let choiceTextWidth := face.boundWidth choiceText
    let choiceX := (screenWidth - choiceTextWidth).tdiv 2
    { x := choiceX, y := y - 13, w := choiceTextWidth, h := 16, index := (i : Int) }
      :: choiceRegions face screenWidth yStart (i + 1) cs

/-- The restart region that `Draw` appends for a node without choices. -/
def restartArea : ChoiceArea :=
  { x := 20, y := 420 - 13, w := 70, h := 16, index := -2 }

/-- The method `Game.Draw`, as far as it changes the `Game`: it sets `quitButton`, wraps the
text of the current node, and rebuilds `choiceAreas`. The calls on the screen (fill, image,
text) leave the `Game` alone. `face` stands for `basicfont.Face7x13`. -/
def Draw (face : Face) (heap : Heap) (g : Game) : Outcome :=
  let quitX := g.screenWidth - 80
  let quitY := 10
  let g1 := { g with quitButton := { x := quitX, y := quitY, w := 70, h := 20, index := -1 } }
  match heap.deref g1.currentNode with
  | none => ⟨Status.nilDereference, heap, g1, none⟩
  | some node =>
    let lines := WrapText node.text face (g1.screenWidth - 40)
    let textY := lines.foldl (fun textY _ => textY + 20) (300 : Int)
    let yStart := textY + 20
    let areas := choiceRegions face g1.screenWidth yStart 0 node.choices
    let areas := if node.choices.length = 0 then areas ++ [restartArea] else areas
    ⟨Status.returned, heap, { g1 with choiceAreas := areas }, none⟩

/-- The method `Game.Layout`. -/
def Layout (g : Game) (outsideWidth : Int) (outsideHeight : Int) : Game × Int × Int :=
  let g1 := { g with screenWidth := outsideWidth }
  let g2 := { g1 with screenHeight := outsideHeight }
  (g2, g2.screenWidth, g2.screenHeight)

/-! ## Update -/

/-- The containment test of the click path (lines 133-134 and 140-141). -/
def inArea (area : ChoiceArea) (x y : Int) : Bool :=
  decide (x ≥ area.x) && decide (x ≤ area.x + area.w) &&
  decide (y ≥ area.y) && decide (y ≤ area.y + area.h)

/-- The containment test of the cursor path (lines 163-164). -/
def inHoverArea (area : ChoiceArea) (x y : Int) : Bool :=
  decide (x ≥ area.x) && decide (x ≤ area.x + area.w) &&
  decide (y ≥ area.y) && decide (y ≤ area.y + area.y + area.h)

/-- The condition of line 129: the button was just released and more than 200ms have passed
since `lastClickTime`. -/
def clickAccepted (g : Game) (inp : Input) : Bool :=
  (g.mouseWasPressed && !inp.mouseIsPressed) &&
  decide (Since (inp.sinceClock : Int) g.lastClickTime > 200 * Millisecond)

/-- Lines 144-146: the restart branch. -/
def restart (heap : Heap) (g : Game) : Outcome :=
  let g1 := { g with currentNode := g.startNode }
  match heap.deref g1.startNode with
  | none => ⟨Status.nilDereference, heap, g1, none⟩
  | some startNode => ⟨Status.returned, heap, { g1 with displayedImage := startNode.image }, none⟩

/-- Lines 149-155: follow the choice `index` of the current node. The slice index panics
when `index` is negative or not below `len(choices)`. -/
def navigate (heap : Heap) (g : Game) (index : Int) : Outcome :=
  match heap.deref g.currentNode with
  | none => ⟨Status.nilDereference, heap, g, none⟩
  | some node =>
    if index < 0 ∨ index ≥ node.choices.length then ⟨Status.indexOutOfRange, heap, g, none⟩
    else
      match node.choices[index.toNat]? with
      | none => ⟨Status.indexOutOfRange, heap, g, none⟩
      | some c =>
        let g1 := { g with currentNode := c.nextNode }
        match heap.deref g1.currentNode with
        | none => ⟨Status.nilDereference, heap, g1, none⟩
        | some target =>
          if target.image ≠ none then
            ⟨Status.returned, heap, { g1 with displayedImage := target.image }, none⟩
          else
            ⟨Status.returned, heap, { g1 with displayedImage := none }, none⟩

/-- The loop `for _, area := range g.choiceAreas` of the click path; `none` when the loop
ends without a region containing the pointer. -/
def clickLoop (heap : Heap) (g : Game) (x y : Int) : List ChoiceArea → Option Outcome
  | [] => none
  | area :: rest =>
    if inArea area x y then
      if area.index = -2 then some (restart heap g)
      else some (navigate heap g area.index)
    else clickLoop heap g x y rest

/-- The local `hovering` of `Update`: the loop over `choiceAreas` of lines 161-168. -/
def hovering (areas : List ChoiceArea) (x y : Int) : Bool :=
  match areas with
  | [] => false
  | area :: rest => if inHoverArea area x y then true else hovering rest x y

/-- Lines 160-176: cursor handling and the final `return nil`. -/
def cursorHandling (heap : Heap) (g : Game) (x y : Int) : Outcome :=
  if hovering g.choiceAreas x y then
    ⟨Status.returned, heap, g, some CursorShape.CursorShapePointer⟩
  else
    ⟨Status.returned, heap, g, some CursorShape.CursorShapeDefault⟩

/-- The method `Game.Update`. -/
def Update (heap : Heap) (g : Game) (inp : Input) : Outcome :=
  let justReleased := g.mouseWasPressed && !inp.mouseIsPressed
  let g1 := { g with mouseWasPressed := inp.mouseIsPressed }
  if justReleased && decide (Since (inp.sinceClock : Int) g1.lastClickTime > 200 * Millisecond) then
    let g2 := { g1 with lastClickTime := (inp.nowClock : Int) }
    if inArea g2.quitButton inp.x inp.y then ⟨Status.exited, heap, g2, none⟩
    else
      match clickLoop heap g2 inp.x inp.y g2.choiceAreas with
      | some out => out
      | none => cursorHandling heap g2 inp.x inp.y
  else cursorHandling heap g1 inp.x inp.y

/-! ## The story of `main` -/

/-- The font `basicfont.Face7x13` as `main.go` uses it: every rune advances by 7 pixels, a
glyph is 6 pixels wide, and `text.BoundString` starts a new row at each newline, so the
bounds of a string span 7 pixels per rune of its longest row, less the last pixel. -/
def Face7x13 : Face where
  glyphAdvance := fun _ => 7
  boundWidth := fun s =>
    let rows := s.data.splitOn (Char.ofNat 10)
    let longest := rows.foldl (fun m row => max m row.length) 0
    if longest = 0 then 0 else 7 * (longest : Int) - 1

/-- One statement of the story construction in `main`: `new v text image` is
`v := &storyNode{text: text, image: image}`, the allocation returning the address `v`, and
`addChoice node cmd description nextNode` is the call
`node.addChoice(cmd, description, nextNode)`. -/
inductive Stmt where
  | new (v : NodeRef) (text : String) (image : Option Image)
  | addChoice (node : NodeRef) (cmd : String) (description : String) (nextNode : NodeRef)

/-- Run one statement; `none` when the allocation does not return the address the
statement names, or when `addChoice` panics. -/
def Stmt.run (heap : Heap) : Stmt → Option Heap
  | Stmt.new v text image =>
    if (newNode heap ⟨text, [], image⟩).2 = v then some (newNode heap ⟨text, [], image⟩).1
    else none
  | Stmt.addChoice node cmd description nextNode =>
    GoFutile.addChoice heap (some node) cmd description (some nextNode)

/-- Run statements in order. -/
def runStmts : Heap → List Stmt → Option Heap
  | heap, [] => some heap
  | heap, s :: rest =>
    match s.run heap with
    | none => none
    | some heap1 => runStmts heap1 rest

namespace Story

/-! The local variables of `main` that hold story nodes, each with the address its
allocation returns (`end` and `catch` are written `endNode` and `catchNode`). -/

/-- The local `start` of `main`. -/
def start : NodeRef := 0

/-- The local `look` of `main`. -/
def look : NodeRef := 1

/-- The local `boat` of `main`. -/
def boat : NodeRef := 2

/-- The local `turn` of `main`. -/
def turn : NodeRef := 3

/-- The local `silence_1` of `main`. -/
def silence_1 : NodeRef := 4

/-- The local `price` of `main`. -/
def price : NodeRef := 5

/-- The local `fine` of `main`. -/
def fine : NodeRef := 6

/-- The local `dead` of `main`. -/
def dead : NodeRef := 7

/-- The local `lean` of `main`. -/
def lean : NodeRef := 8

/-- The local `no_soul` of `main`. -/
def no_soul : NodeRef := 9

/-- The local `depths` of `main`. -/
def depths : NodeRef := 10

/-- The local `bottomless` of `main`. -/
def bottomless : NodeRef := 11

/-- The local `silence_2` of `main`. -/
def silence_2 : NodeRef := 12

/-- The local `grace` of `main`. -/
def grace : NodeRef := 13

/-- The local `yell` of `main`. -/
def yell : NodeRef := 14

/-- The local `joke` of `main`. -/
def joke : NodeRef := 15

/-- The local `who` of `main`. -/
def who : NodeRef := 16

/-- The local `outrun` of `main`. -/
def outrun : NodeRef := 17

/-- The local `swamp` of `main`. -/
def swamp : NodeRef := 18

/-- The local `catch` of `main`. -/
def catchNode : NodeRef := 19

/-- The local `auditor` of `main`. -/
def auditor : NodeRef := 20

/-- The local `what` of `main`. -/
def what : NodeRef := 21

/-- The local `name` of `main`. -/
def name : NodeRef := 22

/-- The local `memory` of `main`. -/
def memory : NodeRef := 23

/-- The local `engulf` of `main`. -/
def engulf : NodeRef := 24

/-- The local `end` of `main`. -/
def endNode : NodeRef := 25

/-- The local `nothing` of `main`. -/
def nothing : NodeRef := 26

/-- The local `going` of `main`. -/
def going : NodeRef := 27

/-- The local `just_you` of `main`. -/
def just_you : NodeRef := 28

/-- The local `accept` of `main`. -/
def accept : NodeRef := 29

/-- The local `time` of `main`. -/
def time : NodeRef := 30

/-- The local `bored` of `main`. -/
def bored : NodeRef := 31

/-- The image `dark_moon` of `main`. -/
def dark_moon : Image := loadImage "./assets/dark_moon.png"

/-- The image `red_moon` of `main`. -/
def red_moon : Image := loadImage "./assets/red_moon.png"

/-- The image `trees` of `main`. -/
def trees : Image := loadImage "./assets/trees.png"

/-- The first allocation of `main` (line 260), which precedes the `Game` literal. -/
def startStmt : Stmt :=
  Stmt.new start "When you next open your eyes, you are standing on the docks of a crowded harbour. \n\tSmall boats mill about, bobbing in the ocean. The incessant chatter of guides haggling with potential passengers grates against your ears." (some dark_moon)

/-- The statements of `main` from line 272 to line 396, in order. -/
def stmts : List Stmt := [
  Stmt.new look "As if by instinct, you are drawn to a boat not too far in the distance.\n\tThe guide, dressed in a shabby blue coat, is watching you." none,
  Stmt.new boat "You walk over but before you can open your mouth, someone jostles you \n\tand you stumble. He grabs your arm and helps you board." none,
  Stmt.new turn "You frantically look around for another guide but they are busy." none,
  Stmt.addChoice look "Yes" "Go with him as your guide" boat,
  Stmt.addChoice look "No" "Turn away" turn,
  Stmt.addChoice start "Look around" "You try to find another guide" look,
  Stmt.addChoice turn "Look back" "He is still watching" start,
  Stmt.new silence_1 "The boat pulls away from the dock rather quickly. \n\tThe both of you journey in silence for a while." (some trees),
  Stmt.new price "\"Don't bother. Sit down.\"" none,
  Stmt.new fine "\"It's fine.\"" none,
  Stmt.addChoice boat "You don't trust him" "What's your price?" price,
  Stmt.addChoice boat "You are grateful" "Thank you" fine,
  Stmt.addChoice price "Sit in silence" "He starts rowing" silence_1,
  Stmt.addChoice fine "Sit in silence" "He starts rowing" silence_1,
  Stmt.new dead "\"Yes. And no.\" You realise he's punting rather than rowing-using a \n\tpole to push against the riverbed. \"You're being asked to resettle in an\n\texistence of not quite living but you're more than half alive.\"" none,
  Stmt.addChoice silence_1 "Muster up the courage" "\"Am I dead?\"" dead,
  Stmt.new lean "\"Don't lean over,\" he warns. You pull your head back, feeling guilty for some reason. \"The souls ocean is bottomless.\"" none,
  Stmt.addChoice dead "Accept this" "You are oddly calm" lean,
  Stmt.new no_soul "\"No,\" he immediately replies. He moves around so easily on the boat,\n\tit's hard to imagine him on land. \"I don't have a soul.\"" none,
  Stmt.new depths "\"Yes.\" He looks away from his incessant punting and gives you a once over.\n\t\"It will drag down anyone with a soul to the very depths.\"" none,
  Stmt.new bottomless "\"Yes.\" He propels the boat forward by pushing off the riverbed once more.\n\t\"Doesn't make sense but trust me.\"" none,
  Stmt.addChoice lean "Ask" "\"Aren't you afraid of falling in?\"" no_soul,
  Stmt.addChoice lean "Ask" "\"The souls ocean?\"" depths,
  Stmt.addChoice lean "Ask" "\"Bottomless?\"" bottomless,
  Stmt.new silence_2 "At your silence, he turns around. \n\tThe wind must be chilly but he stands against it like it's a passing breeze. \n\tHe holds up his pole and flicks his wrist, splashing droplets of water into your face.\n\tRemembering his warning about souls, your arms come up to protect your face. The droplets fall on your \n\tskin harmlessly. You stare at him incredulously." none,
  Stmt.addChoice bottomless "Speechless" "Try to enjoy the ride" silence_2,
  Stmt.addChoice depths "Speechless" "Try to enjoy the ride" silence_2,
  Stmt.addChoice no_soul "Speechless" "Try to enjoy the ride" silence_2,
  Stmt.new grace "\"I'm your guide, you know,\" he says, as if reading your mind. \n\t\"It's my utmost duty to keep you safe.\" It takes some time before you pull away completely from the docks. \n\tBefore you know it, there are no other boats in sight, only the dim outline of the distant shore." none,
  Stmt.new yell "You open your mouth but for some strange reason, \n\tyou can't bring yourself to scold him. Perplexed, you lean back but don't hide your annoyance." none,
  Stmt.addChoice yell "You're not pleased" "You let it go, against your will" grace,
  Stmt.new joke "\"No.\" He turns back to the front. \n\t\"The lack of oxygen from falling in and drowning will get you. The water itself is harmless.\"" none,
  Stmt.addChoice joke "You're not pleased" "You let it go, against your will" grace,
  Stmt.addChoice silence_2 "You're angry" "Yell at him" yell,
  Stmt.addChoice silence_2 "Ask" "\"Was that bottomless ocean thing a joke?\"" joke,
  Stmt.addChoice silence_2 "You're give him grace" "Let it be" grace,
  Stmt.new who "You're about to ask him the question when there's a \n\tlow groan across the waters. Your guide tenses, in the practiced way when people don't \n\twant others to panic." none,
  Stmt.new outrun "\"Outrun a monster.\" Immediately afterwards, a \n\tdangerous torrent swirls into a whirlpool. You look back and see a monster tower over the waves.\n\t\"There's no need to worry,\" he says, in a voice that definitely suggests you should worry.\n\t" none,
  Stmt.new swamp "He deftly manoeuvres the boat into a swamp with low-hanging vines. \n\tThis only makes the beast speed towards the both of you at new, unfounded speeds." (some red_moon),
  Stmt.addChoice outrun "Believe him" "Don't worry" swamp,
  Stmt.addChoice outrun "Don't believe him" "Worrry" swamp,
  Stmt.new catchNode "\"I'm not it's favourite patron.\"" none,
  Stmt.new auditor "\"The auditor. For lost and found.\"" none,
  Stmt.new what "He doesn't reply at first. He keeps punting and lookng over his shoulder.\n\tYou hold on to the side of the boat until the wood splinters cut your palms and fingers. From behind,\n\tthe monster keeps drawing closer." none,
  Stmt.addChoice auditor "Ask" "\"What?\"" what,
  Stmt.addChoice catchNode "Ask" "\"What?\"" what,
  Stmt.new name "He says your name. It would have completely slipped past you except he becomes \n\tutterly still. He meets your eyes like a soldier being told to go on the frontlines." none,
  Stmt.addChoice what "Ask" "Hey?" name,
  Stmt.new memory "The memories tear down the mental walls in your mind.\n\tYou remember him now. Blood on his hands, crying over your body and begging to \n\tsee you one last time. They granted his wish. Each time, he guides you to the realm where you \n\tstart your new life. He waits to see you between lifetimes and loses you, again and again." none,
  Stmt.new engulf "The creature arrives in the swamp but rather than the brutal impact, horror \n\tand gore, a cloud of soft fog so fierce and grey engulfs everything whole. \n\tHis name eludes you. The fog swallows him up and the traces of your life in this realm are fading away." none,
  Stmt.addChoice memory "There is no choice" "There is only one way this ends" engulf,
  Stmt.new endNode "He raises his hand in farewell and the cycle begins again." none,
  Stmt.addChoice engulf "Remember" "Say his name" endNode,
  Stmt.addChoice engulf "Try to be kind" "Don't say his name" endNode,
  Stmt.addChoice name "You remember" "Get your answers" memory,
  Stmt.addChoice name "Block it out" "Your mind doesn't want to remember" memory,
  Stmt.addChoice swamp "Ask" "\"Why is it chasing us?\"" catchNode,
  Stmt.addChoice swamp "Ask" "\"What is that?\"" auditor,
  Stmt.new nothing "\"Nothing-\" He exhales defeatedly, catching himself, then says, \n\t\"Something is happening but it's fine. I've done this before.\"" none,
  Stmt.addChoice nothing "Ask" "\"Done what?\"" outrun,
  Stmt.addChoice who "Ask" "\"What's wrong?\"" nothing,
  Stmt.new going "\"To the place where new things begin.\"" none,
  Stmt.new just_you "\"Just you. I'll be staying for the next passenger.\"" none,
  Stmt.addChoice grace "Ask" "\"Where are we going?\"" going,
  Stmt.addChoice going "Ask" "\"The both of us?\"" just_you,
  Stmt.addChoice just_you "Ask" "\"Who are you?\"" who,
  Stmt.new accept "\"I was asked and accepted it.\"" none,
  Stmt.addChoice grace "Ask" "How did you get this job?" accept,
  Stmt.addChoice accept "Ask" "\"Who are you?\"" who,
  Stmt.new time "\"Time is difficult here. Around 80 years, I think.\"" none,
  Stmt.new bored "\"Not at all.\"" none,
  Stmt.addChoice grace "Ask" "\"How long have you been doing this for?\"" time,
  Stmt.addChoice time "Ask" "\"80 years? Don't you ever get bored?\"" bored,
  Stmt.addChoice bored "Ask" "\"Who are you?\"" who]

end Story

/-- The function `main` up to the call of `ebiten.RunGame(game)`, with all three assets
loading: the story nodes and the game at that point. -/
def main : Option (Heap × Game) :=
  match runStmts [] [Story.startStmt] with
  | none => none
  | some heap0 =>
    match heap0.deref (some Story.start) with
    | none => none
    | some start =>
      let game : Game :=
        { currentNode := some Story.start
          startNode := some Story.start
          choiceAreas := []
          quitButton := ⟨0, 0, 0, 0, 0⟩
          displayedImage := start.image
          lastClickTime := zeroTime
          mouseWasPressed := false
          screenWidth := 640
          screenHeight := 480 }
      match runStmts heap0 Story.stmts with
      | none => none
      | some heap => some (heap, game)

/-! ## Runs of the game loop -/

/-- One call that the `ebiten` game loop makes on the `Game`. -/
inductive Call where
  | update (inp : Input)
  | draw
  | layout (outsideWidth : Int) (outsideHeight : Int)

/-- The outcome of one call. `Layout` always returns. -/
def Call.run (face : Face) (heap : Heap) (g : Game) : Call → Outcome
  | Call.update inp => Update heap g inp
  | Call.draw => Draw face heap g
  | Call.layout w h => ⟨Status.returned, heap, (Layout g w h).1, none⟩

/-- The state after a sequence of calls; the run ends with the first call that does not
return (the process is gone), leaving the state of that moment. -/
def runCalls (face : Face) : Heap → Game → List Call → Heap × Game
  | heap, g, [] => (heap, g)
  | heap, g, c :: rest =>
    let out := c.run face heap g
    if out.status = Status.returned then runCalls face out.heap out.game rest
    else (out.heap, out.game)

/-- The values that the accepted clicks of a run write to `lastClickTime`, in order: one
entry for each `Update` whose condition of line 129 holds. -/
def acceptedTimes (face : Face) : Heap → Game → List Call → List Time
  | _, _, [] => []
  | heap, g, c :: rest =>
    let out := c.run face heap g
    let later := if out.status = Status.returned then acceptedTimes face out.heap out.game rest
      else []
    match c with
    | Call.update inp => if clickAccepted g inp then out.game.lastClickTime :: later else later
    | _ => later

/-- The clock readings of a run, in the order in which they are taken. -/
def clockReadings : List Call → List Nat
  | [] => []
  | Call.update inp :: rest => inp.sinceClock :: inp.nowClock :: clockReadings rest
  | _ :: rest => clockReadings rest

/-- The first region of `areas` that contains the pointer, in registration order. -/
def firstHit (areas : List ChoiceArea) (x y : Int) : Option ChoiceArea :=
  areas.find? (fun area => inArea area x y)

/-! ## The story as a graph -/

/-- A choice of node `a` leads to node `b`. -/
def Edge (heap : Heap) (a b : NodeRef) : Prop :=
  ∃ node c, heap[a]? = some node ∧ c ∈ node.choices ∧ c.nextNode = some b

/-- Node `b` can be reached from node `a` by following choices. -/
def Reachable (heap : Heap) (a b : NodeRef) : Prop :=
  Relation.ReflTransGen (Edge heap) a b

/-- The targets of the choices of node `a`. -/
def successors (heap : Heap) (a : NodeRef) : List NodeRef :=
  match heap[a]? with
  | none => []
  | some node => node.choices.filterMap (fun c => c.nextNode)

/-- Whether `b` is reached from `a` in at most `fuel` choices. -/
def reachIn (heap : Heap) : Nat → NodeRef → NodeRef → Bool
  | 0, a, b => decide (a = b)
  | fuel + 1, a, b => decide (a = b) || (successors heap a).any (fun m => reachIn heap fuel m b)

/-- The story nodes that `main` builds (empty if `main` fails). -/
def storyHeap : Heap :=
  match main with
  | none => []
  | some (heap, _) => heap

/-- The game that `main` hands to `ebiten.RunGame` (a zero `Game` if `main` fails). -/
def storyGame : Game :=
  match main with
  | none => ⟨none, none, [], ⟨0, 0, 0, 0, 0⟩, none, zeroTime, false, 0, 0⟩
  | some (_, game) => game

/-- The game of `main` after its first `Draw`, at 640 pixels with `Face7x13`. -/
def firstFrame : Game :=
  (Draw Face7x13 storyHeap storyGame).game

/-- The first frame of the story with the left button held down. -/
def heldFrame : Game :=
  { firstFrame with mouseWasPressed := true }

/-- A frame of the story at its last node `end`, drawn, with the left button held down. -/
def endFrame : Game :=
  (Draw Face7x13 storyHeap
    { storyGame with currentNode := some Story.endNode, displayedImage := none,
                     mouseWasPressed := true }).game

/-- A game whose regions are stale: from the first frame of the story the player clicks
`Look around`, the frame is drawn, the player clicks `No: Turn away` and presses again, and
no `Draw` has run since, so `choiceAreas` still holds the two regions of the node `look`
while the current node is `turn`, which has one choice. -/
def staleFrame : Game :=
  (runCalls Face7x13 storyHeap firstFrame
    [Call.update (Input.atTime true 320 375 0),
     Call.update (Input.atTime false 320 375 50000000),
     Call.draw,
     Call.update (Input.atTime true 320 375 100000000),
     Call.update (Input.atTime false 320 375 300000000),
     Call.update (Input.atTime true 320 375 400000000)]).2

/-- Whether the target of the choice `c` is a node of `heap` (not nil). -/
def validTarget (heap : Heap) (c : choice) : Bool :=
  match c.nextNode with
  | none => false
  | some r => decide (r < heap.length)

/-- Whether node `a` exists and has no choices. -/
def isTerminal (heap : Heap) (a : NodeRef) : Bool :=
  match heap[a]? with
  | none => false
  | some node => node.choices.isEmpty

/-! ## Facts about `Fields` -/

theorem fieldsLoop_words (cs : List Char) :
    ∀ cur : List Char, (∀ c ∈ cur, isSpace c = false) →
      ∀ w ∈ fieldsLoop cur cs, IsWord w := by
  induction cs with
  | nil =>
    intro cur hcur w hw
    unfold fieldsLoop at hw
    by_cases hc : cur = []
    · simp [hc] at hw
    · simp [hc] at hw
      subst hw
      exact ⟨hc, hcur⟩
  | cons c cs ih =>
    intro cur hcur w hw
    unfold fieldsLoop at hw
    by_cases hsp : isSpace c = true
    · by_cases hc : cur = []
      · simp [hsp, hc] at hw
        exact ih [] (by simp) w hw
      · simp [hsp, hc] at hw
        rcases hw with hw | hw
        · subst hw
          exact ⟨hc, hcur⟩
        · exact ih [] (by simp) w hw
    · simp [hsp] at hw
      refine ih (cur ++ [c]) ?_ w hw
      intro d hd
      rcases List.mem_append.mp hd with hd | hd
      · exact hcur d hd
      · simp at hd
        subst hd
        simpa using hsp

/-- Scanning a word that is followed by the end of input extends the current field. -/
theorem fieldsLoop_word (w : List Char) (hw : ∀ c ∈ w, isSpace c = false) :
    ∀ cur : List Char, fieldsLoop cur w = if (cur ++ w).isEmpty then [] else [cur ++ w] := by
  induction w with
  | nil => intro cur; simp [fieldsLoop]
  | cons c cs ih =>
    intro cur
    have hc : isSpace c = false := hw c (by simp)
    have hcs : ∀ d ∈ cs, isSpace d = false := fun d hd => hw d (by simp [hd])
    unfold fieldsLoop
    simp [hc, ih hcs]

/-- Scanning `xs`, one space, `ys`: the fields of `xs` followed by the fields of `ys`. -/
theorem fieldsLoop_space (xs ys : List Char) :
    ∀ cur : List Char,
      fieldsLoop cur (xs ++ ' ' :: ys) = fieldsLoop cur xs ++ fieldsLoop [] ys := by
  induction xs with
  | nil =>
    intro cur
    have hsp : isSpace ' ' = true := by decide
    by_cases hc : cur = []
    · simp [fieldsLoop, hsp, hc]
    · simp [fieldsLoop, hsp, hc]
  | cons c cs ih =>
    intro cur
    by_cases hsp : isSpace c = true
    · by_cases hc : cur = []
      · simp [fieldsLoop, hsp, hc, ih]
      · simp [fieldsLoop, hsp, hc, ih]
    · simp [fieldsLoop, hsp, ih]

theorem Fields_isWord (text : String) : ∀ w ∈ Fields text, IsWord w.data := by
  intro w hw
  unfold Fields at hw
  rcases List.mem_map.mp hw with ⟨l, hl, rfl⟩
  exact fieldsLoop_words text.data [] (by simp) l hl

theorem Fields_of_word (w : String) (hw : IsWord w.data) : Fields w = [w] := by
  unfold Fields
  rw [fieldsLoop_word w.data hw.2 []]
  have h : w.data ≠ [] := hw.1
  simp [h]

theorem Fields_append_space (a b : String) :
    Fields (a ++ " " ++ b) = Fields a ++ Fields b := by
  unfold Fields
  have h : (a ++ " " ++ b).data = a.data ++ ' ' :: b.data := by
    simp [String.data_append]
  rw [h, fieldsLoop_space, List.map_append]

/-! ## Facts about `WrapText` -/

theorem wordsOf_append (xs ys : List String) : wordsOf (xs ++ ys) = wordsOf xs ++ wordsOf ys := by
  simp [wordsOf]

theorem wordsOf_wrapLoop (face : Face) (maxWidth : Int) (rest : List String)
    (hrest : ∀ w ∈ rest, IsWord w.data) :
    ∀ (lines : List String) (currentLine : String),
      wordsOf (wrapLoop face maxWidth rest lines currentLine)
        = wordsOf lines ++ Fields currentLine ++ rest := by
  induction rest with
  | nil =>
    intro lines currentLine
    simp [wrapLoop, wordsOf]
  | cons word rest ih =>
    intro lines currentLine
    have hword : Fields word = [word] := Fields_of_word word (hrest word (by simp))
    have hrest2 : ∀ w ∈ rest, IsWord w.data := fun w hw => hrest w (by simp [hw])
    unfold wrapLoop
    by_cases hw : textWidth (currentLine ++ " " ++ word) face > maxWidth
    · simp only [hw, if_true]
      rw [ih hrest2, wordsOf_append, hword]
      simp [wordsOf]
    · simp only [hw, if_false]
      rw [ih hrest2, Fields_append_space, hword]
      simp

theorem wordsOf_WrapText (text : String) (face : Face) (maxWidth : Int) :
    wordsOf (WrapText text face maxWidth) = Fields text := by
  have hall := Fields_isWord text
  unfold WrapText
  cases hf : Fields text with
  | nil => simp [wordsOf]
  | cons first rest =>
    rw [hf] at hall
    have hfirst : Fields first = [first] := Fields_of_word first (hall first (by simp))
    have hrest : ∀ w ∈ rest, IsWord w.data := fun w hw => hall w (by simp [hw])
    simp only
    rw [wordsOf_wrapLoop face maxWidth rest hrest, hfirst]
    simp [wordsOf]

theorem foldl_advance (face : Face) (l : List Char) :
    ∀ init : Int, l.foldl (fun width r => width + face.glyphAdvance r) init
      = init + l.foldl (fun width r => width + face.glyphAdvance r) 0 := by
  induction l with
  | nil => intro init; simp
  | cons c cs ih =>
    intro init
    simp only [List.foldl_cons]
    rw [ih (init + face.glyphAdvance c), ih (0 + face.glyphAdvance c)]
    omega

theorem textWidth_append (face : Face) (a b : String) :
    textWidth (a ++ b) face = textWidth a face + textWidth b face := by
  unfold textWidth
  rw [String.data_append, List.foldl_append, foldl_advance face b.data]

theorem textWidth_nonneg (face : Face) (hface : ∀ c, 0 ≤ face.glyphAdvance c) (s : String) :
    0 ≤ textWidth s face := by
  unfold textWidth
  generalize s.data = l
  induction l with
  | nil => simp
  | cons c cs ih =>
    simp only [List.foldl_cons]
    rw [foldl_advance]
    have := hface c
    omega

/-- In the output of the wrapping loop a word wider than `maxWidth` is alone on its line,
provided this holds of the lines closed so far and of the line being built. -/
theorem wrapLoop_overlong (face : Face) (maxWidth : Int)
    (hface : ∀ c, 0 ≤ face.glyphAdvance c) (w : String) (hwide : textWidth w face > maxWidth)
    (rest : List String) (hrest : ∀ v ∈ rest, IsWord v.data) :
    ∀ (lines : List String) (currentLine : String),
      (∀ line ∈ lines, w ∈ Fields line → line = w) →
      (w ∈ Fields currentLine → currentLine = w) →
      ∀ line ∈ wrapLoop face maxWidth rest lines currentLine, w ∈ Fields line → line = w := by
  induction rest with
  | nil =>
    intro lines currentLine hlines hcur line hline
    simp only [wrapLoop, List.mem_append, List.mem_singleton] at hline
    rcases hline with h | h
    · exact hlines line h
    · subst h; exact hcur
  | cons word rest ih =>
    intro lines currentLine hlines hcur
    have hword : Fields word = [word] := Fields_of_word word (hrest word (by simp))
    have hrest2 : ∀ v ∈ rest, IsWord v.data := fun v hv => hrest v (by simp [hv])
    unfold wrapLoop
    by_cases hw : textWidth (currentLine ++ " " ++ word) face > maxWidth
    · simp only [hw, if_true]
      refine ih hrest2 (lines ++ [currentLine]) word ?_ ?_
      · intro line hline
        simp only [List.mem_append, List.mem_singleton] at hline
        rcases hline with h | h
        · exact hlines line h
        · subst h; exact hcur
      · intro h
        rw [hword] at h
        exact (List.mem_singleton.mp h).symm
    · simp only [hw, if_false]
      refine ih hrest2 lines (currentLine ++ " " ++ word) hlines ?_
      intro h
      exfalso
      apply hw
      rw [textWidth_append, textWidth_append]
      have h1 := textWidth_nonneg face hface currentLine
      have h2 := textWidth_nonneg face hface " "
      have h3 := textWidth_nonneg face hface word
      rw [Fields_append_space, hword] at h
      rcases List.mem_append.mp h with h | h
      · rw [hcur h] at h1 ⊢
        omega
      · simp only [List.mem_singleton] at h
        subst h
        omega

theorem WrapText_overlong_alone (text : String) (face : Face) (maxWidth : Int)
    (hface : ∀ c, 0 ≤ face.glyphAdvance c) (w : String) (hwide : textWidth w face > maxWidth) :
    ∀ line ∈ WrapText text face maxWidth, w ∈ Fields line → line = w := by
  have hall := Fields_isWord text
  unfold WrapText
  cases hf : Fields text with
  | nil => simp
  | cons first rest =>
    rw [hf] at hall
    have hfirst : Fields first = [first] := Fields_of_word first (hall first (by simp))
    have hrest : ∀ v ∈ rest, IsWord v.data := fun v hv => hall v (by simp [hv])
    simp only
    refine wrapLoop_overlong face maxWidth hface w hwide rest hrest [] first (by simp) ?_
    intro h
    rw [hfirst] at h
    exact (List.mem_singleton.mp h).symm

theorem count_wordsOf_of_alone (w : String) (hw : Fields w = [w]) (lines : List String)
    (h : ∀ line ∈ lines, w ∈ Fields line → line = w) :
    (wordsOf lines).count w = lines.count w := by
  induction lines with
  | nil => simp [wordsOf]
  | cons l ls ih =>
    have ih2 := ih (fun line hl => h line (by simp [hl]))
    have hsplit : wordsOf (l :: ls) = Fields l ++ wordsOf ls := by simp [wordsOf]
    rw [hsplit, List.count_append, ih2]
    by_cases hl : l = w
    · subst hl
      simp [hw]
      omega
    · have hnot : w ∉ Fields l := fun hmem => hl (h l (by simp) hmem)
      rw [List.count_eq_zero_of_not_mem hnot, List.count_cons_of_ne (Ne.symm hl) ]
      simp

/-- C9. For every text and maxWidth (and every face whose glyph advances are not
negative), every word of the text whose measured width alone exceeds maxWidth appears in
the output of `WrapText` as a complete line consisting of that word only: the word is a
line of the output, every line on which it occurs is the word itself, and it heads as many
lines as it has occurrences in the text. -/
theorem WrapText_overlong_word (text : String) (face : Face) (maxWidth : Int)
    (hface : ∀ c, 0 ≤ face.glyphAdvance c) (w : String) (hw : w ∈ Fields text)
    (hwide : textWidth w face > maxWidth) :
    w ∈ WrapText text face maxWidth ∧
    (∀ line ∈ WrapText text face maxWidth, w ∈ Fields line → line = w) ∧
    (WrapText text face maxWidth).count w = (Fields text).count w := by
  have halone := WrapText_overlong_alone text face maxWidth hface w hwide
  have hwords := wordsOf_WrapText text face maxWidth
  have hfw : Fields w = [w] := Fields_of_word w (Fields_isWord text w hw)
  have hcount := count_wordsOf_of_alone w hfw _ halone
  rw [hwords] at hcount
  refine ⟨?_, halone, hcount.symm⟩
  have : 0 < (WrapText text face maxWidth).count w := by
    rw [← hcount]; exact List.count_pos_iff.mpr hw
  exact List.count_pos_iff.mp this

/-- C1. For every text, font measure and maxWidth, `WrapText` neither drops, duplicates,
reorders nor splits a word: splitting each returned line on white space and concatenating
the word lists in line order gives exactly `strings.Fields(text)`. -/
theorem WrapText_words (text : String) (face : Face) (maxWidth : Int) :
    wordsOf (WrapText text face maxWidth) = Fields text :=
  wordsOf_WrapText text face maxWidth

/-! ## Facts about `Update` -/

theorem Since_gt_iff (now t : Int) :
    Since now t > 200 * Millisecond ↔ now - t > 200 * Millisecond := by
  have hmax : maxDuration = (9223372036854775807 : Int) := by norm_num [maxDuration]
  have hmin : minDuration = (-9223372036854775808 : Int) := by norm_num [minDuration]
  have hms : Millisecond = (1000000 : Int) := rfl
  unfold Since
  rw [hmax, hmin, hms]
  split_ifs with h1 h2
  · constructor <;> intro h <;> linarith
  · constructor <;> intro h <;> linarith
  · exact Iff.rfl

theorem clickAccepted_iff (g : Game) (inp : Input) :
    clickAccepted g inp = true ↔
      (g.mouseWasPressed = true ∧ inp.mouseIsPressed = false ∧
        Since (inp.sinceClock : Int) g.lastClickTime > 200 * Millisecond) := by
  unfold clickAccepted
  simp [and_assoc]

theorem Update_of_not_accepted (heap : Heap) (g : Game) (inp : Input)
    (h : clickAccepted g inp = false) :
    Update heap g inp
      = cursorHandling heap { g with mouseWasPressed := inp.mouseIsPressed } inp.x inp.y := by
  unfold clickAccepted at h
  unfold Update
  simp only [h]
  simp

theorem Update_of_accepted (heap : Heap) (g : Game) (inp : Input)
    (h : clickAccepted g inp = true) :
    Update heap g inp
      = (let g2 : Game := { g with mouseWasPressed := inp.mouseIsPressed,
                                   lastClickTime := (inp.nowClock : Int) }
         if inArea g2.quitButton inp.x inp.y then ⟨Status.exited, heap, g2, none⟩
         else
           match clickLoop heap g2 inp.x inp.y g2.choiceAreas with
           | some out => out
           | none => cursorHandling heap g2 inp.x inp.y) := by
  unfold clickAccepted at h
  unfold Update
  simp only [h]
  simp

theorem cursorHandling_status (heap : Heap) (g : Game) (x y : Int) :
    (cursorHandling heap g x y).status = Status.returned ∧
    (cursorHandling heap g x y).game = g ∧ (cursorHandling heap g x y).heap = heap := by
  unfold cursorHandling
  split_ifs <;> simp

theorem clickLoop_eq_firstHit (heap : Heap) (g : Game) (x y : Int) (areas : List ChoiceArea) :
    clickLoop heap g x y areas
      = (firstHit areas x y).map
          (fun area => if area.index = -2 then restart heap g else navigate heap g area.index) := by
  induction areas with
  | nil => simp [clickLoop, firstHit]
  | cons a rest ih =>
    unfold clickLoop
    by_cases ha : inArea a x y = true
    · simp only [ha, if_true]
      by_cases hi : a.index = -2 <;> simp [firstHit, List.find?, ha, hi]
    · simp only [ha]
      rw [ih]
      simp [firstHit, List.find?, ha]

theorem firstHit_of_split (pre post : List ChoiceArea) (a : ChoiceArea) (x y : Int)
    (hpre : ∀ b ∈ pre, inArea b x y = false) (ha : inArea a x y = true) :
    firstHit (pre ++ a :: post) x y = some a := by
  induction pre with
  | nil => simp [firstHit, List.find?, ha]
  | cons b rest ih =>
    have hb : inArea b x y = false := hpre b (by simp)
    have hrest : ∀ c ∈ rest, inArea c x y = false := fun c hc => hpre c (by simp [hc])
    have := ih hrest
    simp only [firstHit] at this ⊢
    simp [List.find?, hb, this]

theorem firstHit_none (areas : List ChoiceArea) (x y : Int)
    (h : ∀ b ∈ areas, inArea b x y = false) : firstHit areas x y = none := by
  unfold firstHit
  rw [List.find?_eq_none]
  intro b hb
  simp [h b hb]

/-! ## The story of `main`, evaluated -/

theorem main_isSome : main.isSome = true := by
  decide

theorem main_eq : main = some (storyHeap, storyGame) := by
  have hsome := main_isSome
  unfold storyHeap storyGame
  cases h : main with
  | none => rw [h] at hsome; simp at hsome
  | some p => rfl

set_option maxRecDepth 1000000 in
theorem firstFrame_choiceAreas :
    firstFrame.choiceAreas = [⟨173, 367, 293, 16, 0⟩] := by
  decide

/-! ## Click dispatch -/

theorem navigate_of_choice (heap : Heap) (g : Game) (i : Nat) (node target : storyNode)
    (c : choice) (hnode : heap.deref g.currentNode = some node)
    (hc : node.choices[i]? = some c) (htarget : heap.deref c.nextNode = some target) :
    (navigate heap g (i : Int)).status = Status.returned ∧
    (navigate heap g (i : Int)).heap = heap ∧
    (navigate heap g (i : Int)).game
      = { g with currentNode := c.nextNode, displayedImage := target.image } := by
  have hlt : i < node.choices.length := by
    rcases List.getElem?_eq_some_iff.mp hc with ⟨h, _⟩
    exact h
  have hrange : ¬((i : Int) < 0 ∨ (i : Int) ≥ (node.choices.length : Int)) := by omega
  unfold navigate
  simp only [hnode, hrange, if_false, Int.toNat_ofNat, hc, htarget]
  by_cases himg : target.image = none
  · simp [himg]
  · simp [himg]

theorem restart_of_start (heap : Heap) (g : Game) (startNode : storyNode)
    (hstart : heap.deref g.startNode = some startNode) :
    restart heap g
      = ⟨Status.returned, heap,
          { g with currentNode := g.startNode, displayedImage := startNode.image }, none⟩ := by
  unfold restart
  simp [hstart]

theorem Update_of_hit (heap : Heap) (g : Game) (inp : Input) (a : ChoiceArea)
    (hacc : clickAccepted g inp = true)
    (hquit : inArea g.quitButton inp.x inp.y = false)
    (hhit : firstHit g.choiceAreas inp.x inp.y = some a) :
    Update heap g inp
      = (if a.index = -2 then
          restart heap { g with mouseWasPressed := inp.mouseIsPressed,
                                lastClickTime := (inp.nowClock : Int) }
         else
          navigate heap { g with mouseWasPressed := inp.mouseIsPressed,
                                 lastClickTime := (inp.nowClock : Int) } a.index) := by
  rw [Update_of_accepted heap g inp hacc]
  simp only [hquit, clickLoop_eq_firstHit, hhit, Option.map_some']
  simp

theorem Update_of_miss (heap : Heap) (g : Game) (inp : Input)
    (hacc : clickAccepted g inp = true)
    (hquit : inArea g.quitButton inp.x inp.y = false)
    (hhit : firstHit g.choiceAreas inp.x inp.y = none) :
    Update heap g inp
      = cursorHandling heap { g with mouseWasPressed := inp.mouseIsPressed,
                                     lastClickTime := (inp.nowClock : Int) } inp.x inp.y := by
  rw [Update_of_accepted heap g inp hacc]
  simp only [hquit, clickLoop_eq_firstHit, hhit, Option.map_none']
  simp

/-- C3. `Update` changes `currentNode`, `displayedImage` or `lastClickTime` only when the
call sees the release edge (`mouseWasPressed` is true and the button is now not pressed)
and the time elapsed since `lastClickTime` is strictly greater than 200ms: in every other
call (press-down, sustained hold, idle frame, release inside the window) `Update` returns
and leaves all three fields as they were. -/
theorem Update_frame (heap : Heap) (g : Game) (inp : Input)
    (h : ¬(g.mouseWasPressed = true ∧ inp.mouseIsPressed = false ∧
          Since (inp.sinceClock : Int) g.lastClickTime > 200 * Millisecond)) :
    (Update heap g inp).status = Status.returned ∧
    (Update heap g inp).game.currentNode = g.currentNode ∧
    (Update heap g inp).game.displayedImage = g.displayedImage ∧
    (Update heap g inp).game.lastClickTime = g.lastClickTime := by
  have hacc : clickAccepted g inp = false := by
    cases hc : clickAccepted g inp with
    | false => rfl
    | true => exact absurd ((clickAccepted_iff g inp).mp hc) h
  rw [Update_of_not_accepted heap g inp hacc]
  obtain ⟨h1, h2, _⟩ := cursorHandling_status heap
    { g with mouseWasPressed := inp.mouseIsPressed } inp.x inp.y
  rw [h2]
  exact ⟨h1, rfl, rfl, rfl⟩

/-- C5. When a click is accepted, the pointer is outside the quit rectangle, and the first
region of `choiceAreas` containing the pointer has index `i` with `0 <= i < len(choices)`
of the current node, then `Update` returns, `currentNode` is the old
`currentNode.choices[i].nextNode` and `displayedImage` is exactly the image of that node,
nil when that node has no image, whatever was displayed before. -/
theorem Update_navigate (heap : Heap) (g : Game) (inp : Input) (a : ChoiceArea) (i : Nat)
    (node target : storyNode) (c : choice)
    (hacc : clickAccepted g inp = true)
    (hquit : inArea g.quitButton inp.x inp.y = false)
    (hhit : firstHit g.choiceAreas inp.x inp.y = some a)
    (hidx : a.index = (i : Int))
    (hnode : heap.deref g.currentNode = some node)
    (hc : node.choices[i]? = some c)
    (htarget : heap.deref c.nextNode = some target) :
    (Update heap g inp).status = Status.returned ∧
    (Update heap g inp).game.currentNode = c.nextNode ∧
    (Update heap g inp).game.displayedImage = target.image ∧
    (target.image = none → (Update heap g inp).game.displayedImage = none) := by
  have hne : ¬((i : Int) = -2) := by omega
  rw [Update_of_hit heap g inp a hacc hquit hhit, hidx, if_neg hne]
  obtain ⟨h1, _, h3⟩ := navigate_of_choice heap
    { g with mouseWasPressed := inp.mouseIsPressed, lastClickTime := (inp.nowClock : Int) }
    i node target c hnode hc htarget
  rw [h1, h3]
  exact ⟨rfl, rfl, rfl, fun h => h⟩

/-- C6. When a click is accepted, the pointer is outside the quit rectangle, and the first
region of `choiceAreas` containing the pointer is the restart region (index -2), then
`Update` returns with `currentNode` equal to `startNode` and `displayedImage` equal to
`startNode.image`, whatever node was current before. -/
theorem Update_restart (heap : Heap) (g : Game) (inp : Input) (a : ChoiceArea)
    (startNode : storyNode)
    (hacc : clickAccepted g inp = true)
    (hquit : inArea g.quitButton inp.x inp.y = false)
    (hhit : firstHit g.choiceAreas inp.x inp.y = some a)
    (hidx : a.index = -2)
    (hstart : heap.deref g.startNode = some startNode) :
    (Update heap g inp).status = Status.returned ∧
    (Update heap g inp).game.currentNode = g.startNode ∧
    (Update heap g inp).game.startNode = g.startNode ∧
    (Update heap g inp).game.displayedImage = startNode.image := by
  have hrestart := restart_of_start heap
    { g with mouseWasPressed := inp.mouseIsPressed, lastClickTime := (inp.nowClock : Int) }
    startNode hstart
  rw [Update_of_hit heap g inp a hacc hquit hhit, if_pos hidx, hrestart]
  exact ⟨rfl, rfl, rfl, rfl⟩

/-- C8. For every list of regions in `choiceAreas`, overlapping or not, and every pointer
position outside the quit rectangle, an accepted click applies the action of the
earliest-registered region whose rectangle contains the pointer, and of no other region:
the outcome is that of the restart branch (index -2) or of the navigate branch for that
region's index, whatever regions precede or follow it. If no region contains the pointer,
`Update` returns with `currentNode` and `displayedImage` unchanged. -/
theorem Update_first_region_wins (heap : Heap) (g : Game) (inp : Input)
    (hacc : clickAccepted g inp = true)
    (hquit : inArea g.quitButton inp.x inp.y = false) :
    (∀ (pre post : List ChoiceArea) (a : ChoiceArea),
        g.choiceAreas = pre ++ a :: post →
        (∀ b ∈ pre, inArea b inp.x inp.y = false) →
        inArea a inp.x inp.y = true →
        Update heap g inp
          = (if a.index = -2 then
              restart heap { g with mouseWasPressed := inp.mouseIsPressed,
                                    lastClickTime := (inp.nowClock : Int) }
             else
              navigate heap { g with mouseWasPressed := inp.mouseIsPressed,
                                     lastClickTime := (inp.nowClock : Int) } a.index)) ∧
    ((∀ b ∈ g.choiceAreas, inArea b inp.x inp.y = false) →
        (Update heap g inp).status = Status.returned ∧
        (Update heap g inp).game.currentNode = g.currentNode ∧
        (Update heap g inp).game.displayedImage = g.displayedImage) := by
  constructor
  · intro pre post a hsplit hpre ha
    have hhit : firstHit g.choiceAreas inp.x inp.y = some a := by
      rw [hsplit]; exact firstHit_of_split pre post a inp.x inp.y hpre ha
    exact Update_of_hit heap g inp a hacc hquit hhit
  · intro hnone
    rw [Update_of_miss heap g inp hacc hquit (firstHit_none _ _ _ hnone)]
    obtain ⟨h1, h2, _⟩ := cursorHandling_status heap
      { g with mouseWasPressed := inp.mouseIsPressed, lastClickTime := (inp.nowClock : Int) }
      inp.x inp.y
    rw [h2]
    exact ⟨h1, rfl, rfl⟩

set_option maxRecDepth 1000000 in
theorem Update_frame_witness :
    (Update storyHeap heldFrame (Input.atTime true 320 375 1000)).status = Status.returned ∧
    (Update storyHeap heldFrame (Input.atTime true 320 375 1000)).game.currentNode
      = heldFrame.currentNode ∧
    (Update storyHeap heldFrame (Input.atTime true 320 375 1000)).game.displayedImage
      = heldFrame.displayedImage ∧
    (Update storyHeap heldFrame (Input.atTime true 320 375 1000)).game.lastClickTime
      = heldFrame.lastClickTime :=
  Update_frame storyHeap heldFrame (Input.atTime true 320 375 1000) (by decide)

set_option maxRecDepth 1000000 in
theorem Update_navigate_witness :
    heldFrame.currentNode = some Story.start ∧
    heldFrame.displayedImage = some Story.dark_moon ∧
    (Update storyHeap heldFrame (Input.atTime false 320 375 1000)).status = Status.returned ∧
    (Update storyHeap heldFrame (Input.atTime false 320 375 1000)).game.currentNode
      = some Story.look ∧
    (Update storyHeap heldFrame (Input.atTime false 320 375 1000)).game.displayedImage = none :=
  have h := Update_navigate storyHeap heldFrame (Input.atTime false 320 375 1000)
    ⟨173, 367, 293, 16, 0⟩ 0
    ⟨"When you next open your eyes, you are standing on the docks of a crowded harbour. \n\tSmall boats mill about, bobbing in the ocean. The incessant chatter of guides haggling with potential passengers grates against your ears.",
      [⟨"Look around", "You try to find another guide", some Story.look⟩], some Story.dark_moon⟩
    ⟨"As if by instinct, you are drawn to a boat not too far in the distance.\n\tThe guide, dressed in a shabby blue coat, is watching you.",
      [⟨"Yes", "Go with him as your guide", some Story.boat⟩, ⟨"No", "Turn away", some Story.turn⟩],
      none⟩
    ⟨"Look around", "You try to find another guide", some Story.look⟩
    (by decide) (by decide) (by decide) (by decide) (by decide) (by decide) (by decide)
  ⟨by decide, by decide, h.1, h.2.1, h.2.2.1⟩

set_option maxRecDepth 1000000 in
theorem Update_restart_witness :
    endFrame.currentNode = some Story.endNode ∧
    endFrame.displayedImage = none ∧
    (Update storyHeap endFrame (Input.atTime false 50 410 1000)).status = Status.returned ∧
    (Update storyHeap endFrame (Input.atTime false 50 410 1000)).game.currentNode
      = some Story.start ∧
    (Update storyHeap endFrame (Input.atTime false 50 410 1000)).game.displayedImage
      = some Story.dark_moon :=
  have h := Update_restart storyHeap endFrame (Input.atTime false 50 410 1000) restartArea
    ⟨"When you next open your eyes, you are standing on the docks of a crowded harbour. \n\tSmall boats mill about, bobbing in the ocean. The incessant chatter of guides haggling with potential passengers grates against your ears.",
      [⟨"Look around", "You try to find another guide", some Story.look⟩], some Story.dark_moon⟩
    (by decide) (by decide) (by decide) (by decide) (by decide)
  ⟨by decide, by decide, h.1, h.2.1, h.2.2.2⟩

/-- Two overlapping regions under the pointer `(5, 5)`: the first registered leads to choice
0, the second to choice 1. -/
theorem Update_first_region_wins_witness :
    Update
        [⟨"a", [⟨"x", "", some 1⟩, ⟨"y", "", some 2⟩], none⟩, ⟨"b", [], none⟩, ⟨"c", [], none⟩]
        ⟨some 0, some 0, [⟨0, 0, 10, 10, 0⟩, ⟨0, 0, 20, 20, 1⟩], ⟨100, 10, 70, 20, -1⟩, none,
          zeroTime, true, 640, 480⟩
        (Input.atTime false 5 5 1000)
      = ⟨Status.returned,
          [⟨"a", [⟨"x", "", some 1⟩, ⟨"y", "", some 2⟩], none⟩, ⟨"b", [], none⟩, ⟨"c", [], none⟩],
          ⟨some 1, some 0, [⟨0, 0, 10, 10, 0⟩, ⟨0, 0, 20, 20, 1⟩], ⟨100, 10, 70, 20, -1⟩, none,
            1000, false, 640, 480⟩, none⟩ :=
  ((Update_first_region_wins
      [⟨"a", [⟨"x", "", some 1⟩, ⟨"y", "", some 2⟩], none⟩, ⟨"b", [], none⟩, ⟨"c", [], none⟩]
      ⟨some 0, some 0, [⟨0, 0, 10, 10, 0⟩, ⟨0, 0, 20, 20, 1⟩], ⟨100, 10, 70, 20, -1⟩, none,
        zeroTime, true, 640, 480⟩
      (Input.atTime false 5 5 1000) (by decide) (by decide)).1
    [] [⟨0, 0, 20, 20, 1⟩] ⟨0, 0, 10, 10, 0⟩ rfl (by simp) (by decide)).trans (by decide)

theorem WrapText_overlong_word_witness :
    "supercalifragilistic" ∈ WrapText "a supercalifragilistic b" Face7x13 50 ∧
    (∀ line ∈ WrapText "a supercalifragilistic b" Face7x13 50,
      "supercalifragilistic" ∈ Fields line → line = "supercalifragilistic") ∧
    (WrapText "a supercalifragilistic b" Face7x13 50).count "supercalifragilistic"
      = (Fields "a supercalifragilistic b").count "supercalifragilistic" :=
  WrapText_overlong_word "a supercalifragilistic b" Face7x13 50
    (fun _ => by simp [Face7x13]) "supercalifragilistic" (by decide) (by decide)

/-! ## Facts about `Draw` -/

theorem foldl_textY (lines : List String) :
    ∀ textY : Int, lines.foldl (fun textY _ => textY + 20) textY = textY + 20 * lines.length := by
  induction lines with
  | nil => intro textY; simp
  | cons l ls ih =>
    intro textY
    simp only [List.foldl_cons, List.length_cons]
    rw [ih]
    push_cast
    ring

/-- The vertical position below which `Draw` lays out the choices of `node`. -/
theorem Draw_of_node (face : Face) (heap : Heap) (g : Game) (node : storyNode)
    (hnode : heap.deref g.currentNode = some node) :
    Draw face heap g
      = ⟨Status.returned, heap,
          { g with
            quitButton := { x := g.screenWidth - 80, y := 10, w := 70, h := 20, index := -1 },
            choiceAreas :=
              if node.choices.length = 0 then
                choiceRegions face g.screenWidth
                  (300 + 20 * ((WrapText node.text face (g.screenWidth - 40)).length : Int) + 20)
                  0 node.choices ++ [restartArea]
              else
                choiceRegions face g.screenWidth
                  (300 + 20 * ((WrapText node.text face (g.screenWidth - 40)).length : Int) + 20)
                  0 node.choices },
          none⟩ := by
  unfold Draw
  simp only [hnode, foldl_textY]

theorem choiceRegions_length (face : Face) (screenWidth yStart : Int) (cs : List choice) :
    ∀ i : Nat, (choiceRegions face screenWidth yStart i cs).length = cs.length := by
  induction cs with
  | nil => intro i; simp [choiceRegions]
  | cons c cs ih => intro i; simp [choiceRegions, ih]

theorem choiceRegions_getElem? (face : Face) (screenWidth yStart : Int) (cs : List choice) :
    ∀ (i k : Nat), (choiceRegions face screenWidth yStart i cs)[k]?
      = (cs[k]?).map (fun c =>
          { x := (screenWidth - face.boundWidth (c.cmd ++ ": " ++ c.description)).tdiv 2,
            y := yStart + 20 * ((i + k : Nat) : Int) - 13,
            w := face.boundWidth (c.cmd ++ ": " ++ c.description),
            h := 16,
            index := ((i + k : Nat) : Int) }) := by
  induction cs with
  | nil => intro i k; simp [choiceRegions]
  | cons c cs ih =>
    intro i k
    cases k with
    | zero => simp [choiceRegions]
    | succ k =>
      simp only [choiceRegions, List.getElem?_cons_succ]
      rw [ih (i + 1) k]
      have : i + 1 + k = i + (k + 1) := by omega
      rw [this]

theorem choiceRegions_mem (face : Face) (screenWidth yStart : Int) (cs : List choice) (i : Nat)
    (a : ChoiceArea) (ha : a ∈ choiceRegions face screenWidth yStart i cs) :
    ∃ k : Nat, k < cs.length ∧ a.index = ((i + k : Nat) : Int) ∧
      a.y = yStart + 20 * ((i + k : Nat) : Int) - 13 ∧ a.h = 16 := by
  rcases List.mem_iff_getElem?.mp ha with ⟨k, hk⟩
  rw [choiceRegions_getElem?] at hk
  cases hc : cs[k]? with
  | none => rw [hc] at hk; simp at hk
  | some c =>
    rw [hc] at hk
    simp only [Option.map_some', Option.some.injEq] at hk
    have hlt : k < cs.length := (List.getElem?_eq_some_iff.mp hc).1
    refine ⟨k, hlt, ?_, ?_, ?_⟩ <;> rw [← hk]

/-- C7. After `Draw` (on a current node that exists), `choiceAreas` contains a restart
region (index -2) if and only if the current node has zero choices; when it has zero
choices `choiceAreas` is exactly that one restart region, so it holds no navigate region,
and when it has at least one choice no region is a restart region. -/
theorem Draw_restart_iff (face : Face) (heap : Heap) (g : Game) (node : storyNode)
    (hnode : heap.deref g.currentNode = some node) :
    (Draw face heap g).status = Status.returned ∧
    ((∃ a ∈ (Draw face heap g).game.choiceAreas, a.index = -2) ↔ node.choices.length = 0) ∧
    (node.choices.length = 0 →
      (Draw face heap g).game.choiceAreas = [⟨20, 407, 70, 16, -2⟩]) ∧
    (node.choices.length ≥ 1 → ∀ a ∈ (Draw face heap g).game.choiceAreas, a.index ≠ -2) := by
  rw [Draw_of_node face heap g node hnode]
  have hno : ∀ (ys : Int) (a : ChoiceArea),
      a ∈ choiceRegions face g.screenWidth ys 0 node.choices → a.index ≠ -2 := by
    intro ys a ha
    rcases choiceRegions_mem face g.screenWidth ys node.choices 0 a ha with ⟨k, _, hk, _⟩
    omega
  by_cases h0 : node.choices.length = 0
  · have hnil : node.choices = [] := List.length_eq_zero.mp h0
    rw [if_pos h0]
    refine ⟨rfl, ?_, ?_, ?_⟩
    · constructor
      · intro _; exact h0
      · intro _
        refine ⟨restartArea, ?_, rfl⟩
        show restartArea ∈ choiceRegions face g.screenWidth _ 0 node.choices ++ [restartArea]
        simp
    · intro _
      show choiceRegions face g.screenWidth _ 0 node.choices ++ [restartArea] = _
      rw [hnil]
      rfl
    · intro h; omega
  · rw [if_neg h0]
    refine ⟨rfl, ?_, ?_, ?_⟩
    · constructor
      · rintro ⟨a, ha, hidx⟩
        exact absurd hidx (hno _ a ha)
      · intro h; exact absurd h h0
    · intro h; exact absurd h h0
    · intro _ a ha
      exact hno _ a ha

set_option maxRecDepth 1000000 in
theorem Draw_restart_iff_witness :
    (Draw Face7x13 storyHeap storyGame).status = Status.returned ∧
    ((∃ a ∈ (Draw Face7x13 storyHeap storyGame).game.choiceAreas, a.index = -2) ↔
      [(⟨"Look around", "You try to find another guide", some Story.look⟩ : choice)].length
        = 0) ∧
    ([(⟨"Look around", "You try to find another guide", some Story.look⟩ : choice)].length = 0 →
      (Draw Face7x13 storyHeap storyGame).game.choiceAreas = [⟨20, 407, 70, 16, -2⟩]) ∧
    ([(⟨"Look around", "You try to find another guide", some Story.look⟩ : choice)].length ≥ 1 →
      ∀ a ∈ (Draw Face7x13 storyHeap storyGame).game.choiceAreas, a.index ≠ -2) :=
  Draw_restart_iff Face7x13 storyHeap storyGame
    ⟨"When you next open your eyes, you are standing on the docks of a crowded harbour. \n\tSmall boats mill about, bobbing in the ocean. The incessant chatter of guides haggling with potential passengers grates against your ears.",
      [⟨"Look around", "You try to find another guide", some Story.look⟩], some Story.dark_moon⟩
    (by decide)

/-! ## What `Update` leaves alone -/

theorem navigate_frame (heap : Heap) (g : Game) (index : Int) :
    (navigate heap g index).heap = heap ∧
    (navigate heap g index).game.startNode = g.startNode ∧
    (navigate heap g index).game.lastClickTime = g.lastClickTime ∧
    (navigate heap g index).game.mouseWasPressed = g.mouseWasPressed ∧
    (navigate heap g index).game.choiceAreas = g.choiceAreas ∧
    (navigate heap g index).game.quitButton = g.quitButton := by
  unfold navigate
  cases heap.deref g.currentNode with
  | none => exact ⟨rfl, rfl, rfl, rfl, rfl, rfl⟩
  | some node =>
    simp only
    split_ifs
    · exact ⟨rfl, rfl, rfl, rfl, rfl, rfl⟩
    · cases node.choices[index.toNat]? with
      | none => exact ⟨rfl, rfl, rfl, rfl, rfl, rfl⟩
      | some c =>
        simp only
        cases heap.deref c.nextNode with
        | none => exact ⟨rfl, rfl, rfl, rfl, rfl, rfl⟩
        | some target =>
          simp only
          split_ifs <;> exact ⟨rfl, rfl, rfl, rfl, rfl, rfl⟩

theorem restart_frame (heap : Heap) (g : Game) :
    (restart heap g).heap = heap ∧
    (restart heap g).game.startNode = g.startNode ∧
    (restart heap g).game.lastClickTime = g.lastClickTime ∧
    (restart heap g).game.mouseWasPressed = g.mouseWasPressed ∧
    (restart heap g).game.choiceAreas = g.choiceAreas ∧
    (restart heap g).game.quitButton = g.quitButton := by
  unfold restart
  simp only
  cases heap.deref g.startNode <;> exact ⟨rfl, rfl, rfl, rfl, rfl, rfl⟩

theorem Update_game_of_not_accepted (heap : Heap) (g : Game) (inp : Input)
    (h : clickAccepted g inp = false) :
    (Update heap g inp).status = Status.returned ∧
    (Update heap g inp).heap = heap ∧
    (Update heap g inp).game = { g with mouseWasPressed := inp.mouseIsPressed } := by
  rw [Update_of_not_accepted heap g inp h]
  obtain ⟨h1, h2, h3⟩ := cursorHandling_status heap
    { g with mouseWasPressed := inp.mouseIsPressed } inp.x inp.y
  exact ⟨h1, h3, h2⟩

/-- The fields that an accepted click sets or keeps, whatever branch it takes. -/
theorem Update_accepted_frame (heap : Heap) (g : Game) (inp : Input)
    (h : clickAccepted g inp = true) :
    (Update heap g inp).heap = heap ∧
    (Update heap g inp).game.startNode = g.startNode ∧
    (Update heap g inp).game.lastClickTime = (inp.nowClock : Int) ∧
    (Update heap g inp).game.mouseWasPressed = inp.mouseIsPressed ∧
    (Update heap g inp).game.choiceAreas = g.choiceAreas ∧
    (Update heap g inp).game.quitButton = g.quitButton := by
  rw [Update_of_accepted heap g inp h]
  simp only
  split_ifs
  · exact ⟨rfl, rfl, rfl, rfl, rfl, rfl⟩
  · rw [clickLoop_eq_firstHit]
    cases firstHit g.choiceAreas inp.x inp.y with
    | none =>
      simp only [Option.map_none']
      obtain ⟨_, h2, h3⟩ := cursorHandling_status heap
        { g with mouseWasPressed := inp.mouseIsPressed, lastClickTime := (inp.nowClock : Int) }
        inp.x inp.y
      rw [h2, h3]
      exact ⟨rfl, rfl, rfl, rfl, rfl, rfl⟩
    | some a =>
      simp only [Option.map_some']
      split_ifs
      · exact restart_frame heap _
      · exact navigate_frame heap _ a.index

theorem Update_heap_startNode (heap : Heap) (g : Game) (inp : Input) :
    (Update heap g inp).heap = heap ∧ (Update heap g inp).game.startNode = g.startNode := by
  cases h : clickAccepted g inp with
  | false =>
    obtain ⟨_, h2, h3⟩ := Update_game_of_not_accepted heap g inp h
    rw [h2, h3]
    exact ⟨rfl, rfl⟩
  | true =>
    obtain ⟨h1, h2, _⟩ := Update_accepted_frame heap g inp h
    exact ⟨h1, h2⟩

theorem Draw_frame (face : Face) (heap : Heap) (g : Game) :
    (Draw face heap g).heap = heap ∧
    (Draw face heap g).game.startNode = g.startNode ∧
    (Draw face heap g).game.currentNode = g.currentNode ∧
    (Draw face heap g).game.displayedImage = g.displayedImage ∧
    (Draw face heap g).game.lastClickTime = g.lastClickTime ∧
    (Draw face heap g).game.mouseWasPressed = g.mouseWasPressed := by
  unfold Draw
  simp only
  cases heap.deref g.currentNode <;> exact ⟨rfl, rfl, rfl, rfl, rfl, rfl⟩

/-! ## Debounce -/

theorem readings_ordered (calls : List Call) (h : (clockReadings calls).Pairwise (· ≤ ·)) :
    ∀ inp, Call.update inp ∈ calls → inp.sinceClock ≤ inp.nowClock := by
  induction calls with
  | nil => intro inp hin; simp at hin
  | cons c rest ih =>
    intro inp hin
    cases c with
    | update i0 =>
      simp only [clockReadings, List.pairwise_cons] at h
      rcases List.mem_cons.mp hin with heq | hmem
      · injection heq with heq
        subst heq
        exact h.1 _ (by simp)
      · exact ih h.2.2 inp hmem
    | draw =>
      simp only [clockReadings] at h
      rcases List.mem_cons.mp hin with heq | hmem
      · cases heq
      · exact ih h inp hmem
    | layout w hh =>
      simp only [clockReadings] at h
      rcases List.mem_cons.mp hin with heq | hmem
      · cases heq
      · exact ih h inp hmem

theorem acceptedTimes_spaced (face : Face) (calls : List Call)
    (hclock : ∀ inp, Call.update inp ∈ calls → inp.sinceClock ≤ inp.nowClock) :
    ∀ (heap : Heap) (g : Game),
      (∀ t ∈ acceptedTimes face heap g calls, t - g.lastClickTime > 200 * Millisecond) ∧
      (acceptedTimes face heap g calls).Pairwise (fun a b => b - a > 200 * Millisecond) := by
  induction calls with
  | nil => intro heap g; simp [acceptedTimes]
  | cons c rest ih =>
    intro heap g
    have ih2 := ih (fun inp hin => hclock inp (List.mem_cons_of_mem _ hin))
    have hms : Millisecond = (1000000 : Int) := rfl
    cases c with
    | draw =>
      have hfr := Draw_frame face heap g
      simp only [acceptedTimes, Call.run]
      split_ifs
      · have := ih2 (Draw face heap g).heap (Draw face heap g).game
        rw [hfr.2.2.2.2.1] at this
        exact this
      · simp
    | layout w hh =>
      simp only [acceptedTimes, Call.run, if_true]
      exact ih2 heap (Layout g w hh).1
    | update inp =>
      simp only [acceptedTimes, Call.run]
      cases hacc : clickAccepted g inp with
      | false =>
        obtain ⟨_, _, h3⟩ := Update_game_of_not_accepted heap g inp hacc
        simp only [Bool.false_eq_true, if_false]
        split_ifs
        · have hl : (Update heap g inp).game.lastClickTime = g.lastClickTime := by rw [h3]
          have := ih2 (Update heap g inp).heap (Update heap g inp).game
          rw [hl] at this
          exact this
      | true =>
        obtain ⟨_, _, h3, _⟩ := Update_accepted_frame heap g inp hacc
        have hle : inp.sinceClock ≤ inp.nowClock := hclock inp (by simp)
        have hgt : (inp.sinceClock : Int) - g.lastClickTime > 200 * Millisecond :=
          (Since_gt_iff _ _).mp ((clickAccepted_iff g inp).mp hacc).2.2
        have hle2 : (inp.sinceClock : Int) ≤ (inp.nowClock : Int) := by exact_mod_cast hle
        rw [hms] at hgt ⊢
        simp only [if_true]
        split_ifs
        · obtain ⟨hall, hpw⟩ := ih2 (Update heap g inp).heap (Update heap g inp).game
          rw [h3, hms] at hall
          constructor
          · intro t ht
            rcases List.mem_cons.mp ht with heq | hmem
            · rw [heq, h3]; linarith
            · have := hall t hmem
              linarith
          · rw [List.pairwise_cons]
            refine ⟨?_, hpw⟩
            intro t hmem
            rw [h3]
            exact hall t hmem
        · constructor
          · intro t ht
            simp only [List.mem_singleton] at ht
            rw [ht, h3]; linarith
          · simp

/-- C4. In every run of calls whose clock readings are non-decreasing, any two accepted
clicks (the `Update` calls that set `lastClickTime`) are more than 200ms apart: in the list
of the values they write, each later one exceeds each earlier one by more than 200ms, so
no window of 200ms holds two accepted clicks. -/
theorem accepted_clicks_spaced (face : Face) (heap : Heap) (g : Game) (calls : List Call)
    (hclock : (clockReadings calls).Pairwise (· ≤ ·)) :
    (acceptedTimes face heap g calls).Pairwise (fun a b => b - a > 200 * Millisecond) :=
  (acceptedTimes_spaced face calls (readings_ordered calls hclock) heap g).2

set_option maxRecDepth 1000000 in
theorem accepted_clicks_spaced_witness :
    acceptedTimes Face7x13 storyHeap firstFrame
        [Call.update (Input.atTime true 320 375 0),
         Call.update (Input.atTime false 320 375 50000000),
         Call.draw,
         Call.update (Input.atTime true 320 375 60000000),
         Call.update (Input.atTime false 320 375 80000000),
         Call.update (Input.atTime true 320 375 100000000),
         Call.update (Input.atTime false 320 375 300000000)]
      = [50000000, 300000000] ∧
    (acceptedTimes Face7x13 storyHeap firstFrame
        [Call.update (Input.atTime true 320 375 0),
         Call.update (Input.atTime false 320 375 50000000),
         Call.draw,
         Call.update (Input.atTime true 320 375 60000000),
         Call.update (Input.atTime false 320 375 80000000),
         Call.update (Input.atTime true 320 375 100000000),
         Call.update (Input.atTime false 320 375 300000000)]).Pairwise
      (fun a b => b - a > 200 * Millisecond) :=
  ⟨by decide,
   accepted_clicks_spaced Face7x13 storyHeap firstFrame
    [Call.update (Input.atTime true 320 375 0),
     Call.update (Input.atTime false 320 375 50000000),
     Call.draw,
     Call.update (Input.atTime true 320 375 60000000),
     Call.update (Input.atTime false 320 375 80000000),
     Call.update (Input.atTime true 320 375 100000000),
     Call.update (Input.atTime false 320 375 300000000)]
    (by simp [clockReadings, Input.atTime])⟩

theorem clickAccepted_at (g : Game) (x y : Int) (t : Nat) (hheld : g.mouseWasPressed = true) :
    clickAccepted g (Input.atTime false x y t) = true ↔
      (t : Int) - g.lastClickTime > 200 * Millisecond := by
  rw [clickAccepted_iff, Since_gt_iff]
  simp [Input.atTime, hheld]

/-- C2. The scripted sequence pressed@t0, released@t0+50ms, pressed@t0+60ms,
released@t0+80ms, pressed, released@t0+250ms, run through `Update` from a game whose
debounce state is fresh (`lastClickTime` zero, button up) with the pointer over a choice
region, the clock standing at the script's timestamp during each call. The release at
t0+50ms navigates and sets `lastClickTime`; the release at t0+80ms is dropped. The release
at t0+250ms comes exactly 200ms after the accepted one, and the strict test of line 129
drops it as well: `lastClickTime` stays t0+50ms and nothing moves. Any release later than
t0+250ms is accepted. -/
theorem debounce_script (heap : Heap) (g0 : Game) (x y : Int) (t0 tp : Nat) (a : ChoiceArea)
    (i : Nat) (node target : storyNode) (c : choice)
    (hfresh : g0.lastClickTime = zeroTime) (hup : g0.mouseWasPressed = false)
    (hquit : inArea g0.quitButton x y = false)
    (hhit : firstHit g0.choiceAreas x y = some a)
    (hidx : a.index = (i : Int))
    (hnode : heap.deref g0.currentNode = some node)
    (hc : node.choices[i]? = some c)
    (htarget : heap.deref c.nextNode = some target) :
    let o1 := Update heap g0 (Input.atTime true x y t0)
    let o2 := Update heap o1.game (Input.atTime false x y (t0 + 50000000))
    let o3 := Update heap o2.game (Input.atTime true x y (t0 + 60000000))
    let o4 := Update heap o3.game (Input.atTime false x y (t0 + 80000000))
    let o5 := Update heap o4.game (Input.atTime true x y tp)
    let o6 := Update heap o5.game (Input.atTime false x y (t0 + 250000000))
    (o2.status = Status.returned ∧ o2.game.currentNode = c.nextNode ∧
      o2.game.displayedImage = target.image ∧
      o2.game.lastClickTime = ((t0 + 50000000 : Nat) : Int)) ∧
    (o4.status = Status.returned ∧ o4.game.currentNode = o2.game.currentNode ∧
      o4.game.displayedImage = o2.game.displayedImage ∧
      o4.game.lastClickTime = o2.game.lastClickTime) ∧
    (clickAccepted o5.game (Input.atTime false x y (t0 + 250000000)) = false ∧
      o6.status = Status.returned ∧ o6.game.currentNode = o4.game.currentNode ∧
      o6.game.displayedImage = o4.game.displayedImage ∧
      o6.game.lastClickTime = ((t0 + 50000000 : Nat) : Int)) ∧
    (∀ t : Nat, t > t0 + 250000000 →
      clickAccepted o5.game (Input.atTime false x y t) = true ∧
      (Update heap o5.game (Input.atTime false x y t)).game.lastClickTime = (t : Int)) := by
  intro o1 o2 o3 o4 o5 o6
  have hms : Millisecond = (1000000 : Int) := rfl
  have hzero : zeroTime = (-62135596800000000000 : Int) := by norm_num [zeroTime]
  -- the press at t0
  have hacc1 : clickAccepted g0 (Input.atTime true x y t0) = false := by
    simp [clickAccepted, hup]
  obtain ⟨_, _, e1⟩ := Update_game_of_not_accepted heap g0 (Input.atTime true x y t0) hacc1
  have e1 : o1.game = { g0 with mouseWasPressed := true } := e1
  -- the release at t0 + 50ms
  have hacc2 : clickAccepted o1.game (Input.atTime false x y (t0 + 50000000)) = true := by
    rw [clickAccepted_at _ _ _ _ (by rw [e1]), e1]
    show ((t0 + 50000000 : Nat) : Int) - g0.lastClickTime > 200 * Millisecond
    rw [hfresh, hzero, hms]
    push_cast
    linarith [Int.ofNat_nonneg t0]
  have hn := Update_of_hit heap o1.game (Input.atTime false x y (t0 + 50000000)) a hacc2
    (by rw [e1]; exact hquit) (by rw [e1]; exact hhit)
  have hne : ¬((i : Int) = -2) := by omega
  rw [hidx, if_neg hne] at hn
  obtain ⟨n1, _, n3⟩ := navigate_of_choice heap
    { o1.game with mouseWasPressed := (Input.atTime false x y (t0 + 50000000)).mouseIsPressed,
                   lastClickTime := ((Input.atTime false x y (t0 + 50000000)).nowClock : Int) }
    i node target c (by rw [e1]; exact hnode) hc htarget
  have s2 : o2.status = Status.returned := by
    show (Update heap o1.game _).status = _
    rw [hn]; exact n1
  have e2 : o2.game = { g0 with mouseWasPressed := false,
                                lastClickTime := ((t0 + 50000000 : Nat) : Int),
                                currentNode := c.nextNode,
                                displayedImage := target.image } := by
    show (Update heap o1.game _).game = _
    rw [hn, n3, e1]
    rfl
  -- the press at t0 + 60ms
  have hacc3 : clickAccepted o2.game (Input.atTime true x y (t0 + 60000000)) = false := by
    simp [clickAccepted, Input.atTime]
  obtain ⟨_, _, e3⟩ := Update_game_of_not_accepted heap o2.game
    (Input.atTime true x y (t0 + 60000000)) hacc3
  have e3 : o3.game = { o2.game with mouseWasPressed := true } := e3
  -- the release at t0 + 80ms
  have hacc4 : clickAccepted o3.game (Input.atTime false x y (t0 + 80000000)) = false := by
    rw [Bool.eq_false_iff, Ne, clickAccepted_at _ _ _ _ (by rw [e3]), e3, e2]
    show ¬(((t0 + 80000000 : Nat) : Int) - ((t0 + 50000000 : Nat) : Int) > 200 * Millisecond)
    rw [hms]
    push_cast
    linarith
  obtain ⟨s4, _, e4⟩ := Update_game_of_not_accepted heap o3.game
    (Input.atTime false x y (t0 + 80000000)) hacc4
  have e4 : o4.game = { o3.game with mouseWasPressed := false } := e4
  -- the further press
  have hacc5 : clickAccepted o4.game (Input.atTime true x y tp) = false := by
    simp [clickAccepted, Input.atTime]
  obtain ⟨_, _, e5⟩ := Update_game_of_not_accepted heap o4.game (Input.atTime true x y tp) hacc5
  have e5 : o5.game = { o4.game with mouseWasPressed := true } := e5
  have hlast5 : o5.game.lastClickTime = ((t0 + 50000000 : Nat) : Int) := by
    rw [e5, e4, e3, e2]
  -- the release at t0 + 250ms
  have hacc6 : clickAccepted o5.game (Input.atTime false x y (t0 + 250000000)) = false := by
    rw [Bool.eq_false_iff, Ne, clickAccepted_at _ _ _ _ (by rw [e5]), hlast5, hms]
    push_cast
    intro h
    linarith
  obtain ⟨s6, _, e6⟩ := Update_game_of_not_accepted heap o5.game
    (Input.atTime false x y (t0 + 250000000)) hacc6
  have e6 : o6.game = { o5.game with mouseWasPressed := false } := e6
  refine ⟨⟨s2, ?_, ?_, ?_⟩, ⟨s4, ?_, ?_, ?_⟩, ⟨hacc6, s6, ?_, ?_, ?_⟩, ?_⟩
  · rw [e2]
  · rw [e2]
  · rw [e2]
  · rw [e4, e3]
  · rw [e4, e3]
  · rw [e4, e3]
  · rw [e6, e5]
  · rw [e6, e5]
  · rw [e6, e5, e4, e3, e2]
  · intro t ht
    have hacc : clickAccepted o5.game (Input.atTime false x y t) = true := by
      rw [clickAccepted_at _ _ _ _ (by rw [e5]), hlast5, hms]
      have : ((t0 + 250000000 : Nat) : Int) < (t : Int) := by exact_mod_cast ht
      push_cast at this ⊢
      linarith
    exact ⟨hacc, (Update_accepted_frame heap o5.game _ hacc).2.2.1⟩

set_option maxRecDepth 1000000 in
theorem debounce_script_witness :
    (Update storyHeap
        (Update storyHeap
          (Update storyHeap
            (Update storyHeap
              (Update storyHeap
                (Update storyHeap firstFrame (Input.atTime true 320 375 1000)).game
                (Input.atTime false 320 375 (1000 + 50000000))).game
              (Input.atTime true 320 375 (1000 + 60000000))).game
            (Input.atTime false 320 375 (1000 + 80000000))).game
          (Input.atTime true 320 375 (1000 + 240000000))).game
        (Input.atTime false 320 375 (1000 + 250000000))).game.lastClickTime
      = ((1000 + 50000000 : Nat) : Int) :=
  (debounce_script storyHeap firstFrame 320 375 1000 (1000 + 240000000)
    ⟨173, 367, 293, 16, 0⟩ 0
    ⟨"When you next open your eyes, you are standing on the docks of a crowded harbour. \n\tSmall boats mill about, bobbing in the ocean. The incessant chatter of guides haggling with potential passengers grates against your ears.",
      [⟨"Look around", "You try to find another guide", some Story.look⟩], some Story.dark_moon⟩
    ⟨"As if by instinct, you are drawn to a boat not too far in the distance.\n\tThe guide, dressed in a shabby blue coat, is watching you.",
      [⟨"Yes", "Go with him as your guide", some Story.boat⟩, ⟨"No", "Turn away", some Story.turn⟩],
      none⟩
    ⟨"Look around", "You try to find another guide", some Story.look⟩
    (by decide) (by decide) (by decide) (by decide) (by decide) (by decide) (by decide)
    (by decide)).2.2.1.2.2.2.2

/-! ## Cursor handling -/

set_option maxRecDepth 1000000 in
theorem firstFrame_hover :
    firstFrame.choiceAreas = [⟨173, 367, 293, 16, 0⟩] ∧
    firstFrame.quitButton = ⟨560, 10, 70, 20, -1⟩ ∧
    inArea ⟨173, 367, 293, 16, 0⟩ 320 450 = false ∧
    inArea ⟨560, 10, 70, 20, -1⟩ 320 450 = false ∧
    hovering firstFrame.choiceAreas 320 450 = true ∧
    Update storyHeap firstFrame (Input.atTime false 320 450 1000)
      = ⟨Status.returned, storyHeap, firstFrame, some CursorShape.CursorShapePointer⟩ := by
  refine ⟨by decide, by decide, by decide, by decide, by decide, ?_⟩
  have hacc : clickAccepted firstFrame (Input.atTime false 320 450 1000) = false := by decide
  have hh : hovering firstFrame.choiceAreas 320 450 = true := by decide
  have hg : ({ firstFrame with mouseWasPressed := false } : Game) = firstFrame := by decide
  rw [Update_of_not_accepted storyHeap firstFrame _ hacc]
  show cursorHandling storyHeap { firstFrame with mouseWasPressed := false } 320 450 = _
  rw [hg]
  unfold cursorHandling
  rw [hh]
  rfl

/-- C10. In the first frame of the story of `main` (one region, the choice
`Look around`, x in [173, 466], y in [367, 383]) with the pointer at (320, 450), 67 pixels
below the region and in no registered rectangle, `Update` computes `hovering = true` and
sets the pointer cursor: the cursor path tests `y <= area.y + area.y + area.h`, here
`450 <= 750`, where the click path tests `y <= area.y + area.h`. -/
theorem hover_outside_every_region :
    firstFrame.choiceAreas = [⟨173, 367, 293, 16, 0⟩] ∧
    firstFrame.quitButton = ⟨560, 10, 70, 20, -1⟩ ∧
    inArea ⟨173, 367, 293, 16, 0⟩ 320 450 = false ∧
    inArea ⟨560, 10, 70, 20, -1⟩ 320 450 = false ∧
    hovering firstFrame.choiceAreas 320 450 = true ∧
    Update storyHeap firstFrame (Input.atTime false 320 450 1000)
      = ⟨Status.returned, storyHeap, firstFrame, some CursorShape.CursorShapePointer⟩ :=
  firstFrame_hover

/-! ## Blank text -/

theorem fieldsLoop_blank (cs : List Char) (h : ∀ c ∈ cs, isSpace c = true) :
    fieldsLoop [] cs = [] := by
  induction cs with
  | nil => simp [fieldsLoop]
  | cons c cs ih =>
    have hc : isSpace c = true := h c (by simp)
    have hcs : ∀ d ∈ cs, isSpace d = true := fun d hd => h d (by simp [hd])
    simp [fieldsLoop, hc, ih hcs]

/-- C11. For every font measure and every maxWidth, `WrapText` of the empty string returns
the empty list of lines, and so does `WrapText` of any text made only of white space. -/
theorem WrapText_blank (text : String) (face : Face) (maxWidth : Int)
    (h : ∀ c ∈ text.data, isSpace c = true) :
    WrapText "" face maxWidth = [] ∧ WrapText text face maxWidth = [] := by
  have hfields : Fields text = [] := by
    unfold Fields
    rw [fieldsLoop_blank text.data h]
    rfl
  constructor
  · rfl
  · unfold WrapText
    rw [hfields]

theorem WrapText_blank_witness :
    WrapText "" Face7x13 600 = [] ∧ WrapText " \t\n  " Face7x13 600 = [] :=
  WrapText_blank " \t\n  " Face7x13 600 (by decide)

/-! ## Layout of the choice regions -/

/-- C12. For every current node with `n >= 1` choices and every screen width, after `Draw`
`choiceAreas` has exactly `n` regions, the `k`-th region (0-based) carries index `k`, the
top edges increase with `k` in steps of 20 pixels, and the first region lies below the
wrapped text block: the top edge of region `k` is `300 + 20*L + 7 + 20*k`, where `L` is the
number of lines `WrapText` returns for the text of the node at width `screenWidth - 40`. -/
theorem Draw_choice_regions (face : Face) (heap : Heap) (g : Game) (node : storyNode)
    (hnode : heap.deref g.currentNode = some node) (hn : node.choices.length ≥ 1) :
    (Draw face heap g).status = Status.returned ∧
    (Draw face heap g).game.choiceAreas.length = node.choices.length ∧
    (∀ k : Nat, k < node.choices.length →
      ∃ a, (Draw face heap g).game.choiceAreas[k]? = some a ∧ a.index = (k : Int) ∧
        a.y = 300 + 20 * ((WrapText node.text face (g.screenWidth - 40)).length : Int) + 7
                + 20 * (k : Int)) ∧
    (∀ (k : Nat) (a b : ChoiceArea), (Draw face heap g).game.choiceAreas[k]? = some a →
      (Draw face heap g).game.choiceAreas[k + 1]? = some b → b.y = a.y + 20) ∧
    (∃ a, (Draw face heap g).game.choiceAreas[0]? = some a ∧
      a.y = 300 + 20 * ((WrapText node.text face (g.screenWidth - 40)).length : Int) + 7) := by
  have h0 : ¬(node.choices.length = 0) := by omega
  have hareas : (Draw face heap g).game.choiceAreas
      = choiceRegions face g.screenWidth
          (300 + 20 * ((WrapText node.text face (g.screenWidth - 40)).length : Int) + 20)
          0 node.choices := by
    rw [Draw_of_node face heap g node hnode]
    show (if node.choices.length = 0 then _ else _) = _
    rw [if_neg h0]
  have hk : ∀ k : Nat, k < node.choices.length →
      ∃ a, (Draw face heap g).game.choiceAreas[k]? = some a ∧ a.index = (k : Int) ∧
        a.y = 300 + 20 * ((WrapText node.text face (g.screenWidth - 40)).length : Int) + 7
                + 20 * (k : Int) := by
    intro k hlt
    rw [hareas, choiceRegions_getElem?]
    have hsome : node.choices[k]? = some node.choices[k] := List.getElem?_eq_getElem hlt
    rw [hsome]
    refine ⟨_, rfl, ?_, ?_⟩
    · simp
    · simp only [Nat.zero_add]
      ring
  have hget : ∀ (k : Nat) (a : ChoiceArea), (Draw face heap g).game.choiceAreas[k]? = some a →
      a.y = 300 + 20 * ((WrapText node.text face (g.screenWidth - 40)).length : Int) + 7
                + 20 * (k : Int) := by
    intro k a ha
    have hlt : k < node.choices.length := by
      have := (List.getElem?_eq_some_iff.mp ha).1
      rw [hareas, choiceRegions_length] at this
      exact this
    obtain ⟨a', ha', _, hy⟩ := hk k hlt
    rw [ha] at ha'
    injection ha' with ha'
    rw [ha']; exact hy
  refine ⟨?_, ?_, hk, ?_, ?_⟩
  · rw [Draw_of_node face heap g node hnode]
  · rw [hareas, choiceRegions_length]
  · intro k a b ha hb
    rw [hget k a ha, hget (k + 1) b hb]
    push_cast
    ring
  · obtain ⟨a, ha, _, hy⟩ := hk 0 (by omega)
    exact ⟨a, ha, by simpa using hy⟩

/-! ## The quit button -/

theorem Draw_quitButton (face : Face) (heap : Heap) (g : Game) :
    (Draw face heap g).game.quitButton = ⟨g.screenWidth - 80, 10, 70, 20, -1⟩ := by
  unfold Draw
  simp only
  cases heap.deref g.currentNode <;> rfl

/-- C13. An accepted click whose pointer lies inside the quit rectangle that `Draw`
registers (x in [screenWidth-80, screenWidth-10], y in [10, 30]) ends the process with
`os.Exit(0)`, whatever regions `choiceAreas` holds: no choice or restart region is examined
and `currentNode` and `displayedImage` are as they were. -/
theorem Update_quit (face : Face) (heap : Heap) (g : Game) (inp : Input)
    (areas : List ChoiceArea)
    (hacc : clickAccepted (Draw face heap g).game inp = true)
    (hx : g.screenWidth - 80 ≤ inp.x ∧ inp.x ≤ g.screenWidth - 10)
    (hy : 10 ≤ inp.y ∧ inp.y ≤ 30) :
    (Update heap (Draw face heap g).game inp).status = Status.exited ∧
    (Update heap (Draw face heap g).game inp).game.currentNode = g.currentNode ∧
    (Update heap (Draw face heap g).game inp).game.displayedImage = g.displayedImage ∧
    (Update heap { (Draw face heap g).game with choiceAreas := areas } inp).status
      = Status.exited ∧
    (Update heap { (Draw face heap g).game with choiceAreas := areas } inp).game.currentNode
      = g.currentNode ∧
    (Update heap { (Draw face heap g).game with choiceAreas := areas } inp).game.displayedImage
      = g.displayedImage := by
  have hq : inArea (Draw face heap g).game.quitButton inp.x inp.y = true := by
    rw [Draw_quitButton]
    unfold inArea
    simp only [Bool.and_eq_true, decide_eq_true_eq]
    omega
  obtain ⟨_, _, hcur, himg, _, _⟩ := Draw_frame face heap g
  have hacc2 : clickAccepted { (Draw face heap g).game with choiceAreas := areas } inp = true :=
    hacc
  have e1 := Update_of_accepted heap (Draw face heap g).game inp hacc
  have e2 := Update_of_accepted heap { (Draw face heap g).game with choiceAreas := areas } inp
    hacc2
  simp only [hq, if_true] at e1 e2
  rw [e1, e2]
  exact ⟨rfl, hcur, himg, rfl, hcur, himg⟩

set_option maxRecDepth 1000000 in
theorem Draw_choice_regions_witness :
    (WrapText "As if by instinct, you are drawn to a boat not too far in the distance.\n\tThe guide, dressed in a shabby blue coat, is watching you." Face7x13 (640 - 40)).length = 2 ∧
    (Draw Face7x13 storyHeap { storyGame with currentNode := some Story.look }).game.choiceAreas
      = [⟨215, 347, 209, 16, 0⟩, ⟨275, 367, 90, 16, 1⟩] ∧
    (Draw Face7x13 storyHeap { storyGame with currentNode := some Story.look }).status
      = Status.returned ∧
    (Draw Face7x13 storyHeap
        { storyGame with currentNode := some Story.look }).game.choiceAreas.length = 2 :=
  have h := Draw_choice_regions Face7x13 storyHeap
    { storyGame with currentNode := some Story.look }
    ⟨"As if by instinct, you are drawn to a boat not too far in the distance.\n\tThe guide, dressed in a shabby blue coat, is watching you.",
      [⟨"Yes", "Go with him as your guide", some Story.boat⟩, ⟨"No", "Turn away", some Story.turn⟩],
      none⟩
    (by decide) (by decide)
  ⟨by decide, by decide, h.1, h.2.1⟩

set_option maxRecDepth 1000000 in
theorem Update_quit_witness :
    (Update storyHeap (Draw Face7x13 storyHeap { storyGame with mouseWasPressed := true }).game
        (Input.atTime false 600 20 1000)).status = Status.exited ∧
    (Update storyHeap (Draw Face7x13 storyHeap { storyGame with mouseWasPressed := true }).game
        (Input.atTime false 600 20 1000)).game.currentNode = some Story.start :=
  have h := Update_quit Face7x13 storyHeap { storyGame with mouseWasPressed := true }
    (Input.atTime false 600 20 1000) [⟨0, 0, 640, 480, 0⟩]
    (by decide) (by decide) (by decide)
  ⟨h.1, h.2.1.trans (by decide)⟩

/-! ## Building the graph -/

/-- C14. For every node and every `(cmd, description, nextNode)`, `addChoice` appends:
afterwards the choices of the node are the old choices in their old order followed by one
new choice holding exactly those three values, the text and the image of the node are
unchanged, and so is every other node. -/
theorem addChoice_appends (heap : Heap) (r : NodeRef) (node : storyNode) (cmd : String)
    (description : String) (nextNode : Option NodeRef) (hnode : heap[r]? = some node) :
    ∃ heap1, addChoice heap (some r) cmd description nextNode = some heap1 ∧
      heap1[r]? = some ⟨node.text, node.choices ++ [⟨cmd, description, nextNode⟩], node.image⟩ ∧
      heap1.length = heap.length ∧
      ∀ r1, r1 ≠ r → heap1[r1]? = heap[r1]? := by
  have hlt : r < heap.length := (List.getElem?_eq_some_iff.mp hnode).1
  refine ⟨heap.set r { node with choices := node.choices ++ [⟨cmd, description, nextNode⟩] },
    ?_, ?_, ?_, ?_⟩
  · unfold addChoice
    simp only [hnode]
  · simp [hlt]
  · simp
  · intro r1 hne
    exact List.getElem?_set_ne (Ne.symm hne)

theorem addChoice_appends_witness :
    ∃ heap1,
      addChoice [⟨"a", [⟨"x", "d", some 1⟩], none⟩, ⟨"b", [], none⟩] (some 0) "y" "e" (some 0)
        = some heap1 ∧
      heap1[0]? = some ⟨"a", [⟨"x", "d", some 1⟩] ++ [⟨"y", "e", some 0⟩], none⟩ ∧
      heap1.length = 2 ∧
      ∀ r1, r1 ≠ 0 →
        heap1[r1]? = ([⟨"a", [⟨"x", "d", some 1⟩], none⟩, ⟨"b", [], none⟩] : Heap)[r1]? :=
  addChoice_appends [⟨"a", [⟨"x", "d", some 1⟩], none⟩, ⟨"b", [], none⟩] 0
    ⟨"a", [⟨"x", "d", some 1⟩], none⟩ "y" "e" (some 0) rfl

/-! ## Regions are rebuilt, the graph is not touched -/

/-- C16. The regions that `Draw` registers are rebuilt from scratch: for any two game states
that agree on `currentNode` (a node that exists) and `screenWidth` but differ arbitrarily in
their previous `quitButton` and `choiceAreas`, `Draw` returns with identical `quitButton`
and `choiceAreas`, so no region of an earlier frame survives a `Draw`. -/
theorem Draw_rebuilds (face : Face) (heap : Heap) (g1 g2 : Game) (node : storyNode)
    (hcur : g1.currentNode = g2.currentNode) (hwidth : g1.screenWidth = g2.screenWidth)
    (hnode : heap.deref g1.currentNode = some node) :
    (Draw face heap g1).status = Status.returned ∧
    (Draw face heap g2).status = Status.returned ∧
    (Draw face heap g1).game.quitButton = (Draw face heap g2).game.quitButton ∧
    (Draw face heap g1).game.choiceAreas = (Draw face heap g2).game.choiceAreas := by
  have hnode2 : heap.deref g2.currentNode = some node := by rw [← hcur]; exact hnode
  rw [Draw_of_node face heap g1 node hnode, Draw_of_node face heap g2 node hnode2, hwidth]
  exact ⟨rfl, rfl, rfl, rfl⟩

set_option maxRecDepth 1000000 in
theorem Draw_rebuilds_witness :
    (Draw Face7x13 storyHeap storyGame).game.choiceAreas
      = (Draw Face7x13 storyHeap
          { storyGame with choiceAreas := [⟨0, 0, 640, 480, 7⟩, ⟨1, 2, 3, 4, -2⟩],
                           quitButton := ⟨5, 5, 5, 5, 5⟩ }).game.choiceAreas :=
  (Draw_rebuilds Face7x13 storyHeap storyGame
    { storyGame with choiceAreas := [⟨0, 0, 640, 480, 7⟩, ⟨1, 2, 3, 4, -2⟩],
                     quitButton := ⟨5, 5, 5, 5, 5⟩ }
    ⟨"When you next open your eyes, you are standing on the docks of a crowded harbour. \n\tSmall boats mill about, bobbing in the ocean. The incessant chatter of guides haggling with potential passengers grates against your ears.",
      [⟨"Look around", "You try to find another guide", some Story.look⟩], some Story.dark_moon⟩
    rfl rfl (by decide)).2.2.2

theorem runCalls_frame (face : Face) (calls : List Call) :
    ∀ (heap : Heap) (g : Game),
      (runCalls face heap g calls).1 = heap ∧
      (runCalls face heap g calls).2.startNode = g.startNode := by
  induction calls with
  | nil => intro heap g; exact ⟨rfl, rfl⟩
  | cons c rest ih =>
    intro heap g
    have hstep : (c.run face heap g).heap = heap ∧
        (c.run face heap g).game.startNode = g.startNode := by
      cases c with
      | update inp => exact Update_heap_startNode heap g inp
      | draw => exact ⟨(Draw_frame face heap g).1, (Draw_frame face heap g).2.1⟩
      | layout w h => exact ⟨rfl, rfl⟩
    simp only [runCalls]
    split_ifs
    · obtain ⟨h1, h2⟩ := ih (c.run face heap g).heap (c.run face heap g).game
      rw [h1, h2]
      exact hstep
    · exact hstep

/-- C17. `Update`, `Draw` and `Layout` never change `startNode` and never change the text,
choices or image of any story node: after every sequence of these calls the heap of story
nodes is the one the run started with and `startNode` is the node fixed at the start, and
so it is after each single call; `Draw` and `Layout` also leave `currentNode` and
`displayedImage` unchanged. -/
theorem graph_immutable (face : Face) (heap : Heap) (g : Game) :
    (∀ calls : List Call,
      (runCalls face heap g calls).1 = heap ∧
      (runCalls face heap g calls).2.startNode = g.startNode) ∧
    (∀ inp : Input,
      (Update heap g inp).heap = heap ∧ (Update heap g inp).game.startNode = g.startNode) ∧
    ((Draw face heap g).heap = heap ∧ (Draw face heap g).game.startNode = g.startNode ∧
      (Draw face heap g).game.currentNode = g.currentNode ∧
      (Draw face heap g).game.displayedImage = g.displayedImage) ∧
    (∀ w h : Int,
      (Layout g w h).1.startNode = g.startNode ∧
      (Layout g w h).1.currentNode = g.currentNode ∧
      (Layout g w h).1.displayedImage = g.displayedImage ∧
      (Layout g w h).1.screenWidth = w ∧ (Layout g w h).1.screenHeight = h ∧
      (Layout g w h).2 = (w, h)) := by
  refine ⟨fun calls => runCalls_frame face calls heap g,
    fun inp => Update_heap_startNode heap g inp, ?_, ?_⟩
  · obtain ⟨h1, h2, h3, h4, _⟩ := Draw_frame face heap g
    exact ⟨h1, h2, h3, h4⟩
  · intro w h
    exact ⟨rfl, rfl, rfl, rfl, rfl, rfl⟩

/-! ## Greedy lines -/

theorem chain_replace_last {R : String → String → Prop} (lines : List String)
    (a b : String) (h : List.Chain' R (lines ++ [a])) (hab : ∀ x, R x a → R x b) :
    List.Chain' R (lines ++ [b]) := by
  rw [List.chain'_append] at h ⊢
  refine ⟨h.1, List.chain'_singleton b, ?_⟩
  intro x hx y hy
  simp only [List.head?_cons, Option.mem_def, Option.some.injEq] at hy
  subst hy
  exact hab x (h.2.2 x hx a (by simp))

theorem Fields_ne_nil_of_word (w : String) (hw : IsWord w.data) : Fields w ≠ [] := by
  rw [Fields_of_word w hw]
  simp

theorem wrapLoop_greedy (face : Face) (maxWidth : Int) (rest : List String)
    (hrest : ∀ v ∈ rest, IsWord v.data) :
    ∀ (lines : List String) (currentLine : String),
      (∀ l ∈ lines, (Fields l).length > 1 → textWidth l face ≤ maxWidth) →
      ((Fields currentLine).length > 1 → textWidth currentLine face ≤ maxWidth) →
      Fields currentLine ≠ [] →
      List.Chain' (fun a b => ∀ w, (Fields b).head? = some w →
        textWidth (a ++ " " ++ w) face > maxWidth) (lines ++ [currentLine]) →
      (∀ l ∈ wrapLoop face maxWidth rest lines currentLine,
        (Fields l).length > 1 → textWidth l face ≤ maxWidth) ∧
      List.Chain' (fun a b => ∀ w, (Fields b).head? = some w →
        textWidth (a ++ " " ++ w) face > maxWidth)
        (wrapLoop face maxWidth rest lines currentLine) := by
  induction rest with
  | nil =>
    intro lines currentLine hlines hcur _ hchain
    simp only [wrapLoop]
    refine ⟨?_, hchain⟩
    intro l hl
    rcases List.mem_append.mp hl with h | h
    · exact hlines l h
    · simp only [List.mem_singleton] at h
      subst h; exact hcur
  | cons word rest ih =>
    intro lines currentLine hlines hcur hne hchain
    have hword : Fields word = [word] := Fields_of_word word (hrest word (by simp))
    have hrest2 : ∀ v ∈ rest, IsWord v.data := fun v hv => hrest v (by simp [hv])
    unfold wrapLoop
    by_cases hw : textWidth (currentLine ++ " " ++ word) face > maxWidth
    · simp only [hw, if_true]
      refine ih hrest2 (lines ++ [currentLine]) word ?_ ?_ ?_ ?_
      · intro l hl
        rcases List.mem_append.mp hl with h | h
        · exact hlines l h
        · simp only [List.mem_singleton] at h
          subst h; exact hcur
      · intro h
        rw [hword] at h
        simp at h
      · rw [hword]; simp
      · rw [List.append_assoc]
        show List.Chain' _ (lines ++ currentLine :: word :: [])
        rw [List.chain'_append_cons_cons]
        refine ⟨hchain, ?_, List.chain'_singleton word⟩
        intro w hhead
        rw [hword] at hhead
        simp only [List.head?_cons, Option.some.injEq] at hhead
        subst hhead
        exact hw
    · simp only [hw, if_false]
      refine ih hrest2 lines (currentLine ++ " " ++ word) hlines ?_ ?_ ?_
      · intro _
        exact not_lt.mp hw
      · rw [Fields_append_space]
        simp [hne]
      · refine chain_replace_last lines currentLine _ hchain ?_
        intro x hx w hhead
        apply hx w
        rw [Fields_append_space] at hhead
        cases hf : Fields currentLine with
        | nil => exact absurd hf hne
        | cons f fs =>
          rw [hf] at hhead
          simpa using hhead

theorem WrapText_fields_ne_nil (text : String) (face : Face) (maxWidth : Int) :
    ∀ line ∈ WrapText text face maxWidth, Fields line ≠ [] := by
  intro line hline hnil
  have key : ∀ (rest lines : List String) (cur : String),
      (∀ v ∈ rest, IsWord v.data) → (∀ l ∈ lines, Fields l ≠ []) → Fields cur ≠ [] →
      ∀ l ∈ wrapLoop face maxWidth rest lines cur, Fields l ≠ [] := by
    intro rest
    induction rest with
    | nil =>
      intro lines cur _ hl hc l hmem
      simp only [wrapLoop, List.mem_append, List.mem_singleton] at hmem
      rcases hmem with h | h
      · exact hl l h
      · subst h; exact hc
    | cons word rest ih =>
      intro lines cur hr hl hc
      have hword : Fields word = [word] := Fields_of_word word (hr word (by simp))
      have hr2 : ∀ v ∈ rest, IsWord v.data := fun v hv => hr v (by simp [hv])
      unfold wrapLoop
      by_cases hw : textWidth (cur ++ " " ++ word) face > maxWidth
      · simp only [hw, if_true]
        refine ih (lines ++ [cur]) word hr2 ?_ (by rw [hword]; simp)
        intro l hmem
        rcases List.mem_append.mp hmem with h | h
        · exact hl l h
        · simp only [List.mem_singleton] at h
          subst h; exact hc
      · simp only [hw, if_false]
        refine ih lines (cur ++ " " ++ word) hr2 hl ?_
        rw [Fields_append_space]
        simp [hc]
  have hall := Fields_isWord text
  unfold WrapText at hline
  cases hf : Fields text with
  | nil => rw [hf] at hline; simp at hline
  | cons first rest =>
    rw [hf] at hline hall
    have hfirst : Fields first ≠ [] := Fields_ne_nil_of_word first (hall first (by simp))
    exact key rest [] first (fun v hv => hall v (by simp [hv])) (by simp) hfirst line hline hnil

/-- C15. For every text, face and maxWidth, every line returned by `WrapText` that contains
more than one word measures at most maxWidth, and for every pair of consecutive returned
lines the earlier line followed by a single space and the first word of the later line
measures strictly more than maxWidth (each line is greedily maximal); every returned line
has a first word. -/
theorem WrapText_greedy (text : String) (face : Face) (maxWidth : Int) :
    (∀ line ∈ WrapText text face maxWidth,
      (Fields line).length > 1 → textWidth line face ≤ maxWidth) ∧
    List.Chain' (fun a b => ∀ w, (Fields b).head? = some w →
      textWidth (a ++ " " ++ w) face > maxWidth) (WrapText text face maxWidth) ∧
    (∀ line ∈ WrapText text face maxWidth, ∃ w, (Fields line).head? = some w) := by
  have hall := Fields_isWord text
  have hne := WrapText_fields_ne_nil text face maxWidth
  have hhead : ∀ line ∈ WrapText text face maxWidth, ∃ w, (Fields line).head? = some w := by
    intro line hline
    cases hf : Fields line with
    | nil => exact absurd hf (hne line hline)
    | cons f fs => exact ⟨f, rfl⟩
  unfold WrapText at hhead ⊢
  cases hf : Fields text with
  | nil =>
    rw [hf] at hhead
    exact ⟨by simp, List.chain'_nil, hhead⟩
  | cons first rest =>
    rw [hf] at hall hhead
    have hfirst : Fields first = [first] := Fields_of_word first (hall first (by simp))
    have hrest : ∀ v ∈ rest, IsWord v.data := fun v hv => hall v (by simp [hv])
    obtain ⟨h1, h2⟩ := wrapLoop_greedy face maxWidth rest hrest [] first (by simp)
      (by rw [hfirst]; simp) (by rw [hfirst]; simp) (List.chain'_singleton first)
    exact ⟨h1, h2, hhead⟩

theorem WrapText_greedy_witness :
    WrapText "aa bb cc" Face7x13 40 = ["aa bb", "cc"] ∧
    textWidth "aa bb" Face7x13 ≤ 40 ∧
    List.Chain' (fun a b => ∀ w, (Fields b).head? = some w →
      textWidth (a ++ " " ++ w) Face7x13 > 40) (WrapText "aa bb cc" Face7x13 40) :=
  ⟨by decide,
   (WrapText_greedy "aa bb cc" Face7x13 40).1 "aa bb" (by decide) (by decide),
   (WrapText_greedy "aa bb cc" Face7x13 40).2.1⟩

/-! ## Disjoint regions -/

theorem inArea_y (a : ChoiceArea) (x y : Int) (h : inArea a x y = true) :
    a.y ≤ y ∧ y ≤ a.y + a.h := by
  unfold inArea at h
  simp only [Bool.and_eq_true, decide_eq_true_eq] at h
  omega

theorem choiceRegions_pairwise (face : Face) (screenWidth yStart : Int) (cs : List choice) :
    ∀ i : Nat, (choiceRegions face screenWidth yStart i cs).Pairwise
      (fun a b => ∀ x y : Int, ¬(inArea a x y = true ∧ inArea b x y = true)) := by
  induction cs with
  | nil => intro i; simp [choiceRegions]
  | cons c cs ih =>
    intro i
    simp only [choiceRegions, List.pairwise_cons]
    refine ⟨?_, ih (i + 1)⟩
    intro b hb x y hxy
    obtain ⟨k, _, _, hby, _⟩ := choiceRegions_mem face screenWidth yStart cs (i + 1) b hb
    have h1 := inArea_y _ x y hxy.1
    have h2 := inArea_y _ x y hxy.2
    simp only at h1
    rw [hby] at h2
    push_cast at h2
    omega

/-- C18. For every current node (that exists) and every screen width, the rectangles that
`Draw` registers, the quit rectangle and all entries of `choiceAreas`, are pairwise disjoint
under the inclusive containment test of `Update`: no pointer position lies in two of them,
so at most one region can match a click, whatever the registration order. -/
theorem Draw_regions_disjoint (face : Face) (heap : Heap) (g : Game) (node : storyNode)
    (hnode : heap.deref g.currentNode = some node) :
    ((Draw face heap g).game.quitButton :: (Draw face heap g).game.choiceAreas).Pairwise
      (fun a b => ∀ x y : Int, ¬(inArea a x y = true ∧ inArea b x y = true)) := by
  rw [List.pairwise_cons, Draw_quitButton]
  have hL : (0 : Int) ≤ ((WrapText node.text face (g.screenWidth - 40)).length : Int) :=
    Int.ofNat_nonneg _
  have hareas : (Draw face heap g).game.choiceAreas
      = if node.choices.length = 0 then
          choiceRegions face g.screenWidth
            (300 + 20 * ((WrapText node.text face (g.screenWidth - 40)).length : Int) + 20)
            0 node.choices ++ [restartArea]
        else
          choiceRegions face g.screenWidth
            (300 + 20 * ((WrapText node.text face (g.screenWidth - 40)).length : Int) + 20)
            0 node.choices := by
    rw [Draw_of_node face heap g node hnode]
  rw [hareas]
  by_cases h0 : node.choices.length = 0
  · have hnil : node.choices = [] := List.length_eq_zero.mp h0
    rw [if_pos h0, hnil]
    simp only [choiceRegions, List.nil_append, List.mem_singleton, List.pairwise_cons,
      List.not_mem_nil, false_implies, implies_true, List.Pairwise.nil, and_true]
    intro b hb x y hxy
    subst hb
    have h1 := inArea_y _ x y hxy.1
    have h2 := inArea_y _ x y hxy.2
    simp only [restartArea] at h1 h2
    omega
  · rw [if_neg h0]
    refine ⟨?_, choiceRegions_pairwise face g.screenWidth _ node.choices 0⟩
    intro b hb x y hxy
    obtain ⟨k, _, _, hby, _⟩ := choiceRegions_mem face g.screenWidth _ node.choices 0 b hb
    have h1 := inArea_y _ x y hxy.1
    have h2 := inArea_y _ x y hxy.2
    simp only at h1
    rw [hby] at h2
    push_cast at h2
    omega

set_option maxRecDepth 1000000 in
theorem Draw_regions_disjoint_witness :
    (Draw Face7x13 storyHeap { storyGame with currentNode := some Story.look }).game.quitButton
        :: (Draw Face7x13 storyHeap
              { storyGame with currentNode := some Story.look }).game.choiceAreas
      = [⟨560, 10, 70, 20, -1⟩, ⟨215, 347, 209, 16, 0⟩, ⟨275, 367, 90, 16, 1⟩] ∧
    ((Draw Face7x13 storyHeap { storyGame with currentNode := some Story.look }).game.quitButton
        :: (Draw Face7x13 storyHeap
              { storyGame with currentNode := some Story.look }).game.choiceAreas).Pairwise
      (fun a b => ∀ x y : Int, ¬(inArea a x y = true ∧ inArea b x y = true)) :=
  ⟨by decide,
   Draw_regions_disjoint Face7x13 storyHeap { storyGame with currentNode := some Story.look }
    ⟨"As if by instinct, you are drawn to a boat not too far in the distance.\n\tThe guide, dressed in a shabby blue coat, is watching you.",
      [⟨"Yes", "Go with him as your guide", some Story.boat⟩, ⟨"No", "Turn away", some Story.turn⟩],
      none⟩
    (by decide)⟩

/-! ## Index safety -/

theorem navigate_in_range (heap : Heap) (g : Game) (index : Int) (node : storyNode)
    (hnode : heap.deref g.currentNode = some node)
    (hlo : 0 ≤ index) (hhi : index < node.choices.length) :
    (navigate heap g index).status ≠ Status.indexOutOfRange := by
  have hrange : ¬(index < 0 ∨ index ≥ (node.choices.length : Int)) := by omega
  have hlt : index.toNat < node.choices.length := by omega
  have hsome : node.choices[index.toNat]? = some node.choices[index.toNat] :=
    List.getElem?_eq_getElem hlt
  unfold navigate
  simp only [hnode, hrange, if_false, hsome]
  cases heap.deref (node.choices[index.toNat]).nextNode with
  | none => simp
  | some target =>
    simp only
    split_ifs <;> simp

theorem restart_status (heap : Heap) (g : Game) :
    (restart heap g).status ≠ Status.indexOutOfRange := by
  unfold restart
  simp only
  cases heap.deref g.startNode <;> simp

theorem firstHit_mem (areas : List ChoiceArea) (x y : Int) (a : ChoiceArea)
    (h : firstHit areas x y = some a) : a ∈ areas :=
  List.mem_of_find?_eq_some h

set_option maxRecDepth 1000000 in
theorem staleFrame_facts :
    staleFrame.currentNode = some Story.turn ∧
    staleFrame.choiceAreas = [⟨215, 347, 209, 16, 0⟩, ⟨275, 367, 90, 16, 1⟩] ∧
    (Update storyHeap staleFrame (Input.atTime false 320 375 600000000)).status
      = Status.indexOutOfRange := by
  refine ⟨by decide, by decide, by decide⟩

/-- C19. If `choiceAreas` was produced by `Draw` for the node that is current when `Update`
runs, then every region that is not the restart region has `0 <= index < len(choices)` of
that node, and for every pointer position and timestamp `Update` does not end in an index
out of range. Without that precondition the index can be out of range: in the story of
`main`, with the two regions of the node `look` left over while the current node is `turn`
(one choice), an accepted click on the second region panics with index out of range. -/
theorem Update_index_in_range (face : Face) (heap : Heap) (g : Game) (node : storyNode)
    (inp : Input) (hnode : heap.deref g.currentNode = some node) :
    (∀ a ∈ (Draw face heap g).game.choiceAreas,
      a.index = -2 ∨ (0 ≤ a.index ∧ a.index < (node.choices.length : Int))) ∧
    (Update heap (Draw face heap g).game inp).status ≠ Status.indexOutOfRange ∧
    (staleFrame.currentNode = some Story.turn ∧
      staleFrame.choiceAreas = [⟨215, 347, 209, 16, 0⟩, ⟨275, 367, 90, 16, 1⟩] ∧
      (Update storyHeap staleFrame (Input.atTime false 320 375 600000000)).status
        = Status.indexOutOfRange) := by
  have hmem : ∀ a ∈ (Draw face heap g).game.choiceAreas,
      a.index = -2 ∨ (0 ≤ a.index ∧ a.index < (node.choices.length : Int)) := by
    intro a ha
    rw [Draw_of_node face heap g node hnode] at ha
    simp only at ha
    split_ifs at ha with h0
    · rcases List.mem_append.mp ha with h | h
      · obtain ⟨k, hk, hidx, _⟩ := choiceRegions_mem face _ _ node.choices 0 a h
        right; omega
      · simp only [List.mem_singleton] at h
        left; rw [h]; rfl
    · obtain ⟨k, hk, hidx, _⟩ := choiceRegions_mem face _ _ node.choices 0 a ha
      right; omega
  refine ⟨hmem, ?_, staleFrame_facts⟩
  have hcur : (Draw face heap g).game.currentNode = g.currentNode := (Draw_frame face heap g).2.2.1
  cases hacc : clickAccepted (Draw face heap g).game inp with
  | false =>
    rw [(Update_game_of_not_accepted heap _ inp hacc).1]
    simp
  | true =>
    rw [Update_of_accepted heap _ inp hacc]
    simp only
    split_ifs
    · simp
    · rw [clickLoop_eq_firstHit]
      cases hhit : firstHit (Draw face heap g).game.choiceAreas inp.x inp.y with
      | none =>
        simp only [Option.map_none']
        rw [(cursorHandling_status heap _ inp.x inp.y).1]
        simp
      | some a =>
        simp only [Option.map_some']
        split_ifs with hidx
        · exact restart_status heap _
        · rcases hmem a (firstHit_mem _ _ _ a hhit) with h | h
          · exact absurd h hidx
          · exact navigate_in_range heap _ a.index node (by rw [← hnode, ← hcur]) h.1 h.2

set_option maxRecDepth 1000000 in
theorem Update_index_in_range_witness :
    (Update storyHeap (Draw Face7x13 storyHeap { storyGame with mouseWasPressed := true }).game
        (Input.atTime false 320 375 1000)).status ≠ Status.indexOutOfRange :=
  (Update_index_in_range Face7x13 storyHeap { storyGame with mouseWasPressed := true }
    ⟨"When you next open your eyes, you are standing on the docks of a crowded harbour. \n\tSmall boats mill about, bobbing in the ocean. The incessant chatter of guides haggling with potential passengers grates against your ears.",
      [⟨"Look around", "You try to find another guide", some Story.look⟩], some Story.dark_moon⟩
    (Input.atTime false 320 375 1000) (by decide)).2.1

/-! ## The story graph -/

theorem mem_successors_of_edge (heap : Heap) (a b : NodeRef) (h : Edge heap a b) :
    b ∈ successors heap a := by
  obtain ⟨node, c, hnode, hc, hnext⟩ := h
  unfold successors
  rw [hnode]
  exact List.mem_filterMap.mpr ⟨c, hc, hnext⟩

theorem edge_of_mem_successors (heap : Heap) (a b : NodeRef) (h : b ∈ successors heap a) :
    Edge heap a b := by
  unfold successors at h
  cases hnode : heap[a]? with
  | none => rw [hnode] at h; simp at h
  | some node =>
    rw [hnode] at h
    obtain ⟨c, hc, hnext⟩ := List.mem_filterMap.mp h
    exact ⟨node, c, hnode, hc, hnext⟩

theorem reachIn_sound (heap : Heap) :
    ∀ (fuel : Nat) (a b : NodeRef), reachIn heap fuel a b = true → Reachable heap a b := by
  intro fuel
  induction fuel with
  | zero =>
    intro a b h
    simp only [reachIn, decide_eq_true_eq] at h
    subst h
    exact Relation.ReflTransGen.refl
  | succ fuel ih =>
    intro a b h
    simp only [reachIn, Bool.or_eq_true, decide_eq_true_eq, List.any_eq_true] at h
    rcases h with h | ⟨m, hm, hreach⟩
    · subst h
      exact Relation.ReflTransGen.refl
    · exact Relation.ReflTransGen.head (edge_of_mem_successors heap a m hm) (ih m b hreach)

theorem reachable_closed (heap : Heap) (n : Nat)
    (hclosed : ∀ a, a < n → ∀ m ∈ successors heap a, m < n) (a b : NodeRef)
    (ha : a < n) (h : Reachable heap a b) : b < n := by
  induction h with
  | refl => exact ha
  | tail _ hedge ih => exact hclosed _ ih _ (mem_successors_of_edge heap _ _ hedge)

set_option maxRecDepth 1000000 in
theorem story_length : storyHeap.length = 32 := by
  decide

set_option maxRecDepth 1000000 in
theorem story_targets :
    storyHeap.all (fun node => node.choices.all (validTarget storyHeap)) = true := by
  decide

set_option maxRecDepth 1000000 in
theorem story_closed : ∀ a, a < 32 → ∀ m ∈ successors storyHeap a, m < 32 := by
  decide

set_option maxRecDepth 1000000 in
theorem story_terminal : ∀ a, a < 32 → (isTerminal storyHeap a = true ↔ a = Story.endNode) := by
  decide

set_option maxRecDepth 1000000 in
theorem story_reach_end : ∀ a, a < 32 → reachIn storyHeap 32 a Story.endNode = true := by
  decide

/-- C20. In the story graph built by `main`, every choice has a target that is not nil (and
is a node of the story); the node `end` is reachable from `start`, and it is the only node
reachable from `start` that has zero choices; from every node reachable from `start` a path
of choices leads to `end`. -/
theorem story_graph :
    main = some (storyHeap, storyGame) ∧
    (∀ node ∈ storyHeap, ∀ c ∈ node.choices,
      ∃ r target, c.nextNode = some r ∧ storyHeap[r]? = some target) ∧
    Reachable storyHeap Story.start Story.endNode ∧
    (∀ r, Reachable storyHeap Story.start r →
      ∃ node, storyHeap[r]? = some node ∧ (node.choices = [] ↔ r = Story.endNode)) ∧
    (∀ r, Reachable storyHeap Story.start r → Reachable storyHeap r Story.endNode) := by
  have hbound : ∀ r, Reachable storyHeap Story.start r → r < 32 := fun r h =>
    reachable_closed storyHeap 32 story_closed Story.start r (by decide) h
  refine ⟨main_eq, ?_, ?_, ?_, ?_⟩
  · intro node hnode c hc
    have h := story_targets
    rw [List.all_eq_true] at h
    have h2 := h node hnode
    rw [List.all_eq_true] at h2
    have h3 := h2 c hc
    unfold validTarget at h3
    cases hnext : c.nextNode with
    | none => rw [hnext] at h3; simp at h3
    | some r =>
      rw [hnext] at h3
      simp only [decide_eq_true_eq] at h3
      exact ⟨r, storyHeap[r], rfl, List.getElem?_eq_getElem h3⟩
  · exact reachIn_sound storyHeap 32 _ _ (story_reach_end Story.start (by decide))
  · intro r hr
    have hlt : r < 32 := hbound r hr
    have hlen : r < storyHeap.length := by rw [story_length]; exact hlt
    refine ⟨storyHeap[r], List.getElem?_eq_getElem hlen, ?_⟩
    have ht := story_terminal r hlt
    unfold isTerminal at ht
    rw [List.getElem?_eq_getElem hlen] at ht
    simp only [List.isEmpty_iff] at ht
    exact ht
  · intro r hr
    exact reachIn_sound storyHeap 32 _ _ (story_reach_end r (hbound r hr))

set_option maxRecDepth 1000000 in
theorem story_graph_witness : Reachable storyHeap Story.turn Story.endNode :=
  story_graph.2.2.2.2 Story.turn
    (reachIn_sound storyHeap 2 Story.start Story.turn (by decide))

end GoFutile
